import Mathlib

/-
Verification development for the AUJobsScraper repository.

The repository's core pipeline (location normalizer, salary parsers, role
classifier, fingerprint and merge-on-upsert logic) is shallowly embedded
here.  Strings are modelled as lists of character codes (List Nat); each
Python helper is translated into an executable Lean function that mirrors
the source control flow.  Scanning functions that advance by more than one
character per step take an explicit fuel argument; callers always supply
fuel equal to the input length, which is sufficient because every step
consumes at least one input character, so the fuel never runs out on the
paths the source can take.
-/

/-! ### Character-code primitives (ASCII fragment of Python str semantics) -/

/-- Character codes of a Lean string literal, used to write concrete inputs. -/
def codes (s : String) : List Nat := s.data.map Char.toNat

/-- ASCII whitespace, as matched by Python str.strip and the regex class \s. -/
def isSpaceC (c : Nat) : Bool := c == 32 || c == 9 || c == 10 || c == 13 || c == 11 || c == 12

def isDigitC (c : Nat) : Bool := 48 ≤ c && c ≤ 57

def isAlphaC (c : Nat) : Bool := (65 ≤ c && c ≤ 90) || (97 ≤ c && c ≤ 122)

/-- Regex word character \w (ASCII fragment): letter, digit or underscore. -/
def isWordC (c : Nat) : Bool := isAlphaC c || isDigitC c || c == 95

/-- Python str.lower on one ASCII character code. -/
def lowerC (c : Nat) : Nat := if 65 ≤ c ∧ c ≤ 90 then c + 32 else c

/-- Python str.upper on one ASCII character code. -/
def upperC (c : Nat) : Nat := if 97 ≤ c ∧ c ≤ 122 then c - 32 else c

def pyLower (s : List Nat) : List Nat := s.map lowerC

def pyUpper (s : List Nat) : List Nat := s.map upperC

def lstripBy (p : Nat → Bool) (s : List Nat) : List Nat := s.dropWhile p

def rstripBy (p : Nat → Bool) (s : List Nat) : List Nat := (s.reverse.dropWhile p).reverse

/-- Python str.strip() with no argument: trim whitespace on both sides. -/
def pyStrip (s : List Nat) : List Nat := rstripBy isSpaceC (lstripBy isSpaceC s)

/-- Worker for pyTitle; the flag records whether the previous character was
alphabetic (cased), matching Python str.title on ASCII text. -/
def titleAux : Bool → List Nat → List Nat
  | _, [] => []
  | prevAlpha, c :: cs => (if prevAlpha then lowerC c else upperC c) :: titleAux (isAlphaC c) cs

/-- Python str.title on ASCII text. -/
def pyTitle (s : List Nat) : List Nat := titleAux false s

/-- Numeric value of a list of ASCII digit codes, as float(...) yields on an
all-digit string (all numerals in the repository parse to exact integers). -/
def natVal (s : List Nat) : Nat := s.foldl (fun acc d => acc * 10 + (d - 48)) 0

/-- Boolean list beginning test (the pattern is the first argument). -/
def isPrefC : List Nat → List Nat → Bool
  | [], _ => true
  | _ :: _, [] => false
  | a :: as, b :: bs => a == b && isPrefC as bs

/-- Python substring test (pat in text): pat occurs contiguously in text. -/
def containsSub (pat : List Nat) : List Nat → Bool
  | [] => isPrefC pat []
  | c :: rest => isPrefC pat (c :: rest) || containsSub pat rest

/-- Case-insensitive beginning test: the lowercase pattern matches the start
of the text up to ASCII case (used for patterns compiled with re.IGNORECASE). -/
def isPrefCI (pat t : List Nat) : Bool := isPrefC pat (pyLower (t.take pat.length))

/-- Python str.split(sep) for a one-character separator. -/
def splitC (sep : Nat) : List Nat → List (List Nat)
  | [] => [[]]
  | c :: cs =>
    if c == sep then [] :: splitC sep cs
    else
      match splitC sep cs with
      | [] => [[c]]
      | h :: t => (c :: h) :: t

/-- Keep the first element for each key, dropping later elements whose key was
already seen (the seen-set idiom used throughout the repository). -/
def dedupByAux {α β : Type} [DecidableEq β] (key : α → β) : List β → List α → List α
  | _, [] => []
  | seen, a :: as =>
    if key a ∈ seen then dedupByAux key seen as
    else a :: dedupByAux key (key a :: seen) as

def dedupBy {α β : Type} [DecidableEq β] (key : α → β) (l : List α) : List α :=
  dedupByAux key [] l

/-! ### Fingerprinter

Source: src/jobly/db/job_database.py, JobDatabase._generate_fingerprint.
Both inputs are lowercased then stripped and joined with the fixed
delimiter "|" (code 124). -/

def generateFingerprint (company title : List Nat) : List Nat :=
  pyStrip (pyLower company) ++ [124] ++ pyStrip (pyLower title)

/-! ### SalaryParser (src/aujobsscraper/utils/salary_parser.py)

Every numeral matched by the parser is an integer (the captured groups admit
only digits and commas), so annual amounts are modelled as Nat. -/

/-- Salary range produced by SalaryParser.extract_salary. -/
structure SalaryN where
  annual_min : Nat
  annual_max : Nat
deriving DecidableEq

inductive PayInterval
  | hourly
  | daily
  | weekly
  | monthly
  | yearly
deriving DecidableEq

/-- Python str.replace, fuelled (fuel = input length suffices: each step
consumes at least one input character when the pattern is nonempty). -/
def pyReplaceF (pat rep : List Nat) : Nat → List Nat → List Nat
  | _, [] => []
  | 0, t => t
  | fuel + 1, c :: cs =>
    if pat ≠ [] ∧ isPrefC pat (c :: cs) = true then
      rep ++ pyReplaceF pat rep fuel ((c :: cs).drop pat.length)
    else c :: pyReplaceF pat rep fuel cs

def pyReplace (pat rep t : List Nat) : List Nat := pyReplaceF pat rep t.length t

/-- Unescape markdown-escaped punctuation, as at the top of extract_salary. -/
def cleanDesc (t : List Nat) : List Nat :=
  pyReplace (codes "\\.") (codes ".")
    (pyReplace (codes "\\-") (codes "-")
      (pyReplace (codes "\\$") (codes "$") t))

/-- First index at which pat occurs in the text, if any. -/
def findSubIdx (pat : List Nat) : List Nat → Option Nat
  | [] => if isPrefC pat [] then some 0 else none
  | c :: rest =>
    if isPrefC pat (c :: rest) then some 0
    else (findSubIdx pat rest).map (· + 1)

/-- Python str.split(sep, maxsplit), fuelled (fuel = input length suffices
since the separator is nonempty). -/
def splitLimitF (d : List Nat) : Nat → Nat → List Nat → List (List Nat)
  | _, 0, t => [t]
  | 0, _, t => [t]
  | fuel + 1, maxsplit + 1, t =>
    match findSubIdx d t with
    | none => [t]
    | some i => t.take i :: splitLimitF d fuel maxsplit (t.drop (i + d.length))

def splitLimit (d : List Nat) (maxsplit : Nat) (t : List Nat) : List (List Nat) :=
  splitLimitF d t.length maxsplit t

def joinWith (d : List Nat) : List (List Nat) → List Nat
  | [] => []
  | [x] => x
  | x :: y :: rest => x ++ d ++ joinWith d (y :: rest)

def sentenceDelims : List (List Nat) :=
  [codes ".\n", codes "!\n", codes "?\n", codes ".\n\n", codes ". ", codes "! ", codes "? "]

/-- SalaryParser._get_first_sentences: bound the searched text to the first
five sentence-like chunks or 1000 characters. -/
def getFirstSentences (t : List Nat) : List Nat :=
  if t.length ≤ 1000 then t
  else
    let current := t.take 2000
    match sentenceDelims.find? (fun d => containsSub d current) with
    | none => t.take 1000
    | some d => (joinWith d ((splitLimit d 5 current).take 5)).take 1000

def isDigCommaC (c : Nat) : Bool := isDigitC c || c == 44

/-- Character class of RANGE_PATTERN between the two numbers, with
re.IGNORECASE: hyphen, the three codepoints of the mojibake en-dash
(U+00E2 with its case pair U+00C2, U+20AC, U+201C) and both cases of the
letters t and o. -/
def isRangeSepC (c : Nat) : Bool :=
  c == 45 || c == 226 || c == 194 || c == 8364 || c == 8220 ||
  c == 116 || c == 84 || c == 111 || c == 79

/-- Consume a single optional literal character (regex \x?). -/
def consumeOpt (x : Nat) : List Nat → Nat × List Nat
  | [] => (0, [])
  | c :: cs => if c == x then (1, cs) else (0, c :: cs)

/-- The part of RANGE_PATTERN after group 1: separator run (required),
optional dollar, then group 2 (required).  Returns (consumed length,
group 2). -/
def matchRangeTail (r3 : List Nat) : Option (Nat × List Nat) :=
  let ws2 := r3.takeWhile isSpaceC
  let r4 := r3.drop ws2.length
  let seps := r4.takeWhile isRangeSepC
  if seps = [] then none else
  let r5 := r4.drop seps.length
  let ws3 := r5.takeWhile isSpaceC
  let r6 := r5.drop ws3.length
  let p2 := consumeOpt 36 r6
  let g2 := p2.2.takeWhile isDigCommaC
  if g2 = [] then none else
  some (ws2.length + seps.length + ws3.length + p2.1 + g2.length, g2)

/-- Attempt RANGE_PATTERN at the start of t.  The character classes of
consecutive components are pairwise disjoint, so greedy matching without
backtracking is exact.  Returns (match length, group 1, group 2). -/
def matchRangeAt (t : List Nat) : Option (Nat × List Nat × List Nat) :=
  let p1 := consumeOpt 36 t
  let ws1 := p1.2.takeWhile isSpaceC
  let r2 := p1.2.drop ws1.length
  let g1 := r2.takeWhile isDigCommaC
  if g1 = [] then none else
  match matchRangeTail (r2.drop g1.length) with
  | none => none
  | some (k, g2) => some (p1.1 + ws1.length + g1.length + k, g1, g2)

/-- re.search for RANGE_PATTERN: leftmost position wins.
Returns (start index, match length, group 1, group 2). -/
def searchRangeAux : List Nat → Option (Nat × Nat × List Nat × List Nat)
  | [] => none
  | c :: cs =>
    match matchRangeAt (c :: cs) with
    | some (len, g1, g2) => some (0, len, g1, g2)
    | none => (searchRangeAux cs).map (fun r => (r.1 + 1, r.2))

def searchRange (t : List Nat) : Option (Nat × Nat × List Nat × List Nat) :=
  searchRangeAux t

def intervalAlts : List (List Nat) :=
  [codes "hour", codes "hr", codes "week", codes "month", codes "year",
   codes "annual", codes "annum"]

/-- The part of SINGLE_VALUE_PATTERN after group 1: optional k suffix,
optional per or slash, optional interval word, every piece preceded by
optional whitespace.  Always succeeds; returns the consumed length. -/
def matchSingleTail (r3 : List Nat) : Nat :=
  let kc := if r3.take 1 = [107] ∨ r3.take 1 = [75] then 1 else 0
  let r4 := r3.drop kc
  let ws2 := r4.takeWhile isSpaceC
  let r5 := r4.drop ws2.length
  let pc := if isPrefCI (codes "per") r5 then 3 else if r5.take 1 = [47] then 1 else 0
  let r6 := r5.drop pc
  let ws3 := r6.takeWhile isSpaceC
  let r7 := r6.drop ws3.length
  let ic :=
    match intervalAlts.find? (fun a => isPrefCI a r7) with
    | some a => a.length
    | none => 0
  kc + ws2.length + pc + ws3.length + ic

/-- Attempt SINGLE_VALUE_PATTERN at the start of t.  After group 1 every
component is optional, so a position matches exactly when group 1 is
nonempty there.  Returns (match length, group 1). -/
def matchSingleAt (t : List Nat) : Option (Nat × List Nat) :=
  let p1 := consumeOpt 36 t
  let ws1 := p1.2.takeWhile isSpaceC
  let r2 := p1.2.drop ws1.length
  let g1 := r2.takeWhile isDigCommaC
  if g1 = [] then none else
  some (p1.1 + ws1.length + g1.length + matchSingleTail (r2.drop g1.length), g1)

/-- re.search for SINGLE_VALUE_PATTERN: leftmost position wins.
Returns (start index, match length, group 1). -/
def searchSingleAux : List Nat → Option (Nat × Nat × List Nat)
  | [] => none
  | c :: cs =>
    match matchSingleAt (c :: cs) with
    | some (len, g1) => some (0, len, g1)
    | none => (searchSingleAux cs).map (fun r => (r.1 + 1, r.2))

def searchSingle (t : List Nat) : Option (Nat × Nat × List Nat) :=
  searchSingleAux t

/-- float(group.replace(",", "")): drop commas and read the digits;
an all-comma group raises ValueError, modelled as none. -/
def parseNum (g : List Nat) : Option Nat :=
  let digits := g.filter (fun c => c ≠ 44)
  if digits = [] then none else some (natVal digits)

/-- SalaryParser._detect_interval.  Both the explicit yearly branch and the
final default return yearly, so they are written as one fallthrough. -/
def detectInterval (ctx : List Nat) : PayInterval :=
  let t := pyLower ctx
  if containsSub (codes "hour") t || containsSub (codes "/hr") t || containsSub (codes "hrly") t then
    PayInterval.hourly
  else if containsSub (codes "day") t then PayInterval.daily
  else if containsSub (codes "week") t || containsSub (codes "wk") t then PayInterval.weekly
  else if containsSub (codes "month") t || containsSub (codes "mo") t || containsSub (codes "mth") t then
    PayInterval.monthly
  else PayInterval.yearly

/-- SalaryParser._to_annual: the fixed annualization multiplier table. -/
def toAnnualN (a : Nat) : PayInterval → Nat
  | PayInterval.hourly => a * 2080
  | PayInterval.daily => a * 260
  | PayInterval.weekly => a * 52
  | PayInterval.monthly => a * 12
  | PayInterval.yearly => a * 1

/-- The 50-characters-each-side context window around a match, lowercased. -/
def ctxAround (s : List Nat) (i len : Nat) : List Nat :=
  pyLower ((s.take (i + len + 50)).drop (i - 50))

/-- SalaryParser._extract_range. -/
def extractRange (s : List Nat) : Option (Nat × Nat × PayInterval) :=
  match searchRange s with
  | none => none
  | some (i, len, g1, g2) =>
    match parseNum g1, parseNum g2 with
    | some a, some b => some (a, b, detectInterval (ctxAround s i len))
    | _, _ => none

/-- SalaryParser._extract_single_value, including the times-1000 step taken
whenever the letter k occurs anywhere in the lowercased whole match. -/
def extractSingle (s : List Nat) : Option (Nat × PayInterval) :=
  match searchSingle s with
  | none => none
  | some (i, len, g1) =>
    match parseNum g1 with
    | none => none
    | some v0 =>
      let g0 := (s.drop i).take len
      let v := if 107 ∈ pyLower g0 then v0 * 1000 else v0
      some (v, detectInterval (ctxAround s i len))

/-- SalaryParser.extract_salary. -/
def extract_salary (description : List Nat) : Option SalaryN :=
  if description = [] then none else
  let s := getFirstSentences (cleanDesc description)
  match extractRange s with
  | some (a, b, iv) =>
    let am := toAnnualN a iv
    let bm := toAnnualN b iv
    some ⟨min am bm, max am bm⟩
  | none =>
    match extractSingle s with
    | some (v, iv) => some ⟨toAnnualN v iv, toAnnualN v iv⟩
    | none => none

/-! ### normalize_salary (src/aujobsscraper/utils/scraper_utils.py)

This parser admits decimal numerals, so an amount is modelled as an exact
scaled integer: num / 10 ^ exp (Python float arithmetic on these values is
modelled exactly). -/

structure DecimalVal where
  num : Nat
  exp : Nat
deriving DecidableEq

def dvMulNat (v : DecimalVal) (m : Nat) : DecimalVal := ⟨v.num * m, v.exp⟩

def dvLt (a b : DecimalVal) : Bool := a.num * 10 ^ b.exp < b.num * 10 ^ a.exp

/-- Python min(a, b): the first argument wins ties. -/
def dvMin (a b : DecimalVal) : DecimalVal := if dvLt b a then b else a

/-- Python max(a, b): the first argument wins ties. -/
def dvMax (a b : DecimalVal) : DecimalVal := if dvLt a b then b else a

def dvListMin : DecimalVal → List DecimalVal → DecimalVal
  | acc, [] => acc
  | acc, x :: xs => dvListMin (dvMin acc x) xs

def dvListMax : DecimalVal → List DecimalVal → DecimalVal
  | acc, [] => acc
  | acc, x :: xs => dvListMax (dvMax acc x) xs

/-- Rational value of a scaled integer, for stating value-level properties. -/
def dvToRat (v : DecimalVal) : ℚ := (v.num : ℚ) / 10 ^ v.exp

/-- re.findall for the pattern of one decimal numeral with optional k suffix,
applied to the lowercased comma-free text; fuelled (fuel = input length
suffices: every step consumes at least one character). -/
def findNumMatchesF : Nat → List Nat → List DecimalVal
  | _, [] => []
  | 0, _ => []
  | fuel + 1, c :: cs =>
    if isDigitC c then
      let intp := (c :: cs).takeWhile isDigitC
      let r1 := (c :: cs).drop intp.length
      let dotc := if r1.take 1 = [46] then 1 else 0
      let r2 := r1.drop dotc
      let frac := r2.takeWhile isDigitC
      let r3 := r2.drop frac.length
      let kc := if r3.take 1 = [107] then 1 else 0
      let r4 := r3.drop kc
      let v : DecimalVal := ⟨natVal (intp ++ frac), frac.length⟩
      (if kc = 1 then dvMulNat v 1000 else v) :: findNumMatchesF fuel r4
    else findNumMatchesF fuel cs

def findNumMatches (t : List Nat) : List DecimalVal := findNumMatchesF t.length t

/-- The two-number context heuristic: in "80-100k" style input the first
number is also scaled by 1000 when the second exceeds 1000 and the first is
below 1000. -/
def applyKContext : List DecimalVal → List DecimalVal
  | [a, b] =>
    if dvLt ⟨1000, 0⟩ b = true ∧ dvLt a ⟨1000, 0⟩ = true then [dvMulNat a 1000, b]
    else [a, b]
  | l => l

/-- Time-unit detection of normalize_salary, on the lowercased comma-free
text (hourly, then monthly, then weekly, then daily, else yearly). -/
def salaryMultiplier (text : List Nat) : Nat :=
  if containsSub (codes "hour") text || containsSub (codes "hr") text ||
     containsSub (codes "/hr") text || containsSub (codes "ph") text then 2080
  else if containsSub (codes "month") text || containsSub (codes "mo") text ||
          containsSub (codes "/mo") text then 12
  else if containsSub (codes "week") text || containsSub (codes "wk") text then 52
  else if containsSub (codes "day") text || containsSub (codes "daily") text then 260
  else 1

/-- normalize_salary: lower and strip commas, detect the time-unit
multiplier, extract all numerals, apply the context heuristic, annualize,
and discard implausible results (annual minimum outside 10,000..1,000,000). -/
def normalize_salary (raw : List Nat) : Option (DecimalVal × DecimalVal) :=
  if raw = [] then none else
  let text := (pyLower raw).filter (fun c => c ≠ 44)
  let multiplier : Nat := salaryMultiplier text
  match findNumMatches text with
  | [] => none
  | v0 :: vs =>
    match applyKContext (v0 :: vs) with
    | [] => none
    | w0 :: ws =>
      let min_sal := dvMulNat (dvListMin w0 ws) multiplier
      let max_sal := dvMulNat (dvListMax w0 ws) multiplier
      if dvLt min_sal ⟨10000, 0⟩ = true ∨ dvLt ⟨1000000, 0⟩ min_sal = true then none
      else some (min_sal, max_sal)

/-! ### LocationNormalizer (src/aujobsscraper/utils/scraper_utils.py,
normalize_locations, with tables from src/aujobsscraper/utils/constants.py) -/

structure Loc where
  city : List Nat
  state : List Nat
deriving DecidableEq

/-- AUSTRALIAN_STATES, in source order (the order regex alternatives are
tried at a given position). -/
def australianStates : List (List Nat) :=
  [codes "NSW", codes "VIC", codes "QLD", codes "SA",
   codes "WA", codes "TAS", codes "NT", codes "ACT"]

/-- STATE_NAMES. -/
def stateNames : List (List Nat) :=
  [codes "new south wales", codes "nsw", codes "victoria", codes "vic",
   codes "queensland", codes "qld", codes "south australia", codes "sa",
   codes "western australia", codes "wa", codes "tasmania", codes "tas",
   codes "northern territory", codes "nt",
   codes "australian capital territory", codes "act",
   codes "australia", codes "au"]

/-- CITY_TO_STATE, the gazetteer. -/
def cityToState : List (List Nat × List Nat) :=
  [(codes "sydney", codes "NSW"), (codes "newcastle", codes "NSW"),
   (codes "wollongong", codes "NSW"), (codes "central coast", codes "NSW"),
   (codes "maitland", codes "NSW"), (codes "wagga wagga", codes "NSW"),
   (codes "albury", codes "NSW"), (codes "port macquarie", codes "NSW"),
   (codes "tamworth", codes "NSW"), (codes "orange", codes "NSW"),
   (codes "dubbo", codes "NSW"), (codes "bathurst", codes "NSW"),
   (codes "lismore", codes "NSW"), (codes "nowra", codes "NSW"),
   (codes "north sydney", codes "NSW"), (codes "parramatta", codes "NSW"),
   (codes "melbourne", codes "VIC"), (codes "geelong", codes "VIC"),
   (codes "ballarat", codes "VIC"), (codes "bendigo", codes "VIC"),
   (codes "shepparton", codes "VIC"), (codes "mildura", codes "VIC"),
   (codes "warrnambool", codes "VIC"), (codes "wodonga", codes "VIC"),
   (codes "traralgon", codes "VIC"), (codes "horsham", codes "VIC"),
   (codes "brisbane", codes "QLD"), (codes "gold coast", codes "QLD"),
   (codes "sunshine coast", codes "QLD"), (codes "townsville", codes "QLD"),
   (codes "cairns", codes "QLD"), (codes "toowoomba", codes "QLD"),
   (codes "mackay", codes "QLD"), (codes "rockhampton", codes "QLD"),
   (codes "bundaberg", codes "QLD"), (codes "hervey bay", codes "QLD"),
   (codes "gladstone", codes "QLD"), (codes "ipswich", codes "QLD"),
   (codes "adelaide", codes "SA"), (codes "mount gambier", codes "SA"),
   (codes "whyalla", codes "SA"), (codes "port lincoln", codes "SA"),
   (codes "port augusta", codes "SA"), (codes "murray bridge", codes "SA"),
   (codes "perth", codes "WA"), (codes "mandurah", codes "WA"),
   (codes "bunbury", codes "WA"), (codes "geraldton", codes "WA"),
   (codes "albany", codes "WA"), (codes "kalgoorlie", codes "WA"),
   (codes "busselton", codes "WA"), (codes "rockingham", codes "WA"),
   (codes "hobart", codes "TAS"), (codes "launceston", codes "TAS"),
   (codes "devonport", codes "TAS"), (codes "burnie", codes "TAS"),
   (codes "darwin", codes "NT"), (codes "alice springs", codes "NT"),
   (codes "palmerston", codes "NT"), (codes "canberra", codes "ACT")]

def lookupCity (k : List Nat) : Option (List Nat) :=
  (cityToState.find? (fun p => p.1 == k)).map Prod.snd

def isCityKey (k : List Nat) : Bool := (lookupCity k).isSome

/-- The literal NON_CITY_PATTERNS (all but the last are plain substrings). -/
def nonCityLiterals : List (List Nat) :=
  [codes "cbd and inner suburbs", codes "inner suburbs",
   codes "western suburbs", codes "eastern suburbs",
   codes "northern suburbs", codes "southern suburbs",
   codes "metro", codes "metropolitan", codes "region", codes "area"]

/-- Does the regex greater\s+\w+ match starting exactly here?  Greedy
whitespace run then at least one word character; the classes are disjoint,
so greedy matching is exact. -/
def greaterAt (t : List Nat) : Bool :=
  isPrefC (codes "greater") t &&
    (let r := t.drop 7
     let ws := r.takeWhile isSpaceC
     !ws.isEmpty &&
       (match r.drop ws.length with
        | d :: _ => isWordC d
        | [] => false))

/-- re.search for greater\s+\w+ anywhere in the text. -/
def greaterMatch : List Nat → Bool
  | [] => false
  | c :: cs => greaterAt (c :: cs) || greaterMatch cs

/-- Does any NON_CITY_PATTERNS regex match the lowercased location? -/
def nonCityMatch (l : List Nat) : Bool :=
  nonCityLiterals.any (fun p => containsSub p l) || greaterMatch l

/-- Zero-width word boundary test against the previous character. -/
def boundaryB : Option Nat → Bool
  | none => true
  | some c => !(isWordC c)

/-- Word boundary immediately after a match: end of text or a non-word
character. -/
def bAfter : List Nat → Bool
  | [] => true
  | c :: _ => !(isWordC c)

/-- At one position, try the state-abbreviation alternatives in order,
case-insensitively, requiring the trailing word boundary (the leading
boundary is checked by the caller).  Returns the canonical abbreviation. -/
def stateAt (t : List Nat) : Option (List Nat) :=
  australianStates.find? (fun a => isPrefCI (pyLower a) t && bAfter (t.drop a.length))

/-- re.search for the word-bounded state-abbreviation alternation: leftmost
position first, then alternative order.  Returns (start index, abbreviation). -/
def findStateAux (prev : Option Nat) : List Nat → Option (Nat × List Nat)
  | [] => none
  | c :: cs =>
    match (if boundaryB prev then stateAt (c :: cs) else none) with
    | some a => some (0, a)
    | none => (findStateAux (some c) cs).map (fun r => (r.1 + 1, r.2))

def findState (t : List Nat) : Option (Nat × List Nat) := findStateAux none t

/-- The reversed-parts scan of the no-state-abbreviation branch: emit the
first comma-separated part (scanning from the end) that is a known city. -/
def cityFromParts : List (List Nat) → Option Loc
  | [] => none
  | p :: ps =>
    match lookupCity (pyLower p) with
    | some st => some ⟨pyTitle p, st⟩
    | none => cityFromParts ps

/-- City candidate once a state abbreviation was found: the text before the
match, stripped of trailing comma and whitespace; when commas remain, the
last comma-separated segment. -/
def stateFoundCity (beforeState : List Nat) : List Nat :=
  if (44 : Nat) ∈ beforeState then ((splitC 44 beforeState).map pyStrip).getLastD []
  else beforeState

/-- Branch of normalize_locations taken when a state abbreviation was found
at index i: emit TitleCase(candidate) with the uppercased matched text when
the candidate is a known city; an unknown candidate leaves the city empty,
which the final truthiness test rejects (modelled as none). -/
def stateFoundBranch (location : List Nat) (i : Nat) (a : List Nat) : Option Loc :=
  let cand := stateFoundCity (pyStrip (rstripBy (fun c => c == 44) (pyStrip (location.take i))))
  if isCityKey (pyLower cand) then
    some ⟨pyTitle cand, pyUpper ((location.drop i).take a.length)⟩
  else none

/-- Branch of normalize_locations taken when no state abbreviation occurs:
scan comma-separated parts from the end for a known city, or look the whole
string up in the gazetteer. -/
def noStateBranch (location : List Nat) : Option Loc :=
  if (44 : Nat) ∈ location then
    cityFromParts (((splitC 44 location).map pyStrip).reverse)
  else
    match lookupCity (pyLower location) with
    | some st => some ⟨pyTitle location, st⟩
    | none => none

/-- Per-input-string body of the normalize_locations loop of
src/aujobsscraper/utils/scraper_utils.py (this variant preserves the
country-level sentinel).  Returns the emitted entry, if any. -/
def processLocation (raw : List Nat) : Option Loc :=
  if raw = [] then none else
  let location := pyStrip raw
  let lower := pyLower location
  if lower = codes "australia" ∨ lower = codes "au" then
    some ⟨codes "Australia", []⟩
  else if lower ∈ stateNames then none
  else if nonCityMatch lower then none
  else
    match findState location with
    | some (i, a) => stateFoundBranch location i a
    | none => noStateBranch location

/-- normalize_locations: process every input and deduplicate the emitted
entries by the (city, state) pair, preserving first-occurrence order. -/
def normalize_locations (locations : List (List Nat)) : List Loc :=
  dedupBy (fun l => (l.city, l.state)) (locations.filterMap processLocation)

/-! ### RoleClassifier

Sources: src/aujobsscraper/utils/scraper_utils.py extract_job_role (with the
early graduate-program check) and src/jobly/utils/scraper_utils.py
extract_job_role (without it).  Both are modelled with company_name = None
(the call sites relevant to the claims pass no company).  The external
embedding-similarity fallback is an abstract parameter E applied to the
cleaned title; the source reaches it only when no taxonomy keyword matches,
and it degrades to "Specialized" when the provider errors. -/

/-- STOP_WORDS.  The source iterates a Python set whose order is
unspecified; the set-literal order is used here.  On titles whose stop-word
occurrences do not overlap (all titles below), the result is
order-independent. -/
def stopWordsList : List (List Nat) :=
  [codes "internship", codes "intern", codes "grad", codes "program",
   codes "graduate", codes "graduate program", codes "phd", codes "masters",
   codes "start", codes "2025", codes "2026", codes "2024", codes "2027",
   codes "full-time", codes "full time", codes "part-time", codes "part time",
   codes "remote", codes "on-site", codes "onsite", codes "temporary",
   codes "contract", codes "senior", codes "junior", codes "lead",
   codes "entry", codes "entry level", codes "level", codes "principal",
   codes "head", codes "staff", codes "trainee"]

/-- re.sub of one word-bounded literal by a single space, fuelled.  The
previous-character argument carries the word-boundary context; scanning
resumes after a replaced match, as re.sub does.  Every stop word starts and
ends with a word character, so the boundary tests reduce to the neighbour
being a non-word character. -/
def subWordF (w0 : Nat) (wr : List Nat) : Nat → Option Nat → List Nat → List Nat
  | _, _, [] => []
  | 0, _, t => t
  | fuel + 1, prev, c :: cs =>
    if boundaryB prev && isPrefC (w0 :: wr) (c :: cs) && bAfter (cs.drop wr.length) then
      32 :: subWordF w0 wr fuel (some (wr.getLastD w0)) (cs.drop wr.length)
    else c :: subWordF w0 wr fuel (some c) cs

def subWord (w t : List Nat) : List Nat :=
  match w with
  | [] => t
  | w0 :: wr => subWordF w0 wr t.length none t

def removeStops (t : List Nat) : List Nat :=
  stopWordsList.foldl (fun acc w => subWord w acc) t

/-- Separator class of the year regex tail: the regex class of whitespace,
slash and hyphen. -/
def isSepYM (c : Nat) : Bool := isSpaceC c || c == 47 || c == 45

/-- Match length of the year pattern (literal 20, two digits, then an
optional separator run followed by 2..4 digits, all word-bounded) at the
start of the text, encoded as the extra length beyond the mandatory four
characters.  When the optional tail cannot complete, the regex engine
matches it empty and requires the boundary right after the four digits. -/
def yearMatchExtra (t : List Nat) : Option Nat :=
  match t with
  | c1 :: c2 :: d3 :: d4 :: rest =>
    if c1 = 50 ∧ c2 = 48 ∧ isDigitC d3 = true ∧ isDigitC d4 = true then
      let seps := rest.takeWhile isSepYM
      let rest2 := rest.drop seps.length
      let digs := rest2.takeWhile isDigitC
      if 2 ≤ digs.length ∧ digs.length ≤ 4 ∧ bAfter (rest2.drop digs.length) = true then
        some (seps.length + digs.length)
      else if bAfter rest then some 0 else none
    else none
  | _ => none

/-- re.sub of the year pattern by a single space, fuelled. -/
def yearSubF : Nat → Option Nat → List Nat → List Nat
  | _, _, [] => []
  | 0, _, t => t
  | fuel + 1, prev, c :: cs =>
    match (if boundaryB prev then yearMatchExtra (c :: cs) else none) with
    | some k =>
      32 :: yearSubF fuel (some (((c :: cs).take (4 + k)).getLastD 32)) ((c :: cs).drop (4 + k))
    | none => c :: yearSubF fuel (some c) cs

def yearSub (t : List Nat) : List Nat := yearSubF t.length none t

/-- re.sub of a parenthesized aside (open paren, any non-paren run, close
paren) by a single space, fuelled. -/
def parenSubF : Nat → List Nat → List Nat
  | _, [] => []
  | 0, t => t
  | fuel + 1, c :: cs =>
    if c = 40 then
      let inner := cs.takeWhile (fun d => d ≠ 41)
      match cs.drop inner.length with
      | 41 :: rest => 32 :: parenSubF fuel rest
      | _ => c :: parenSubF fuel cs
    else c :: parenSubF fuel cs

def parenSub (t : List Nat) : List Nat := parenSubF t.length t

/-- re.sub of every whitespace run by a single space, fuelled. -/
def collapseWsF : Nat → List Nat → List Nat
  | _, [] => []
  | 0, t => t
  | fuel + 1, c :: cs =>
    if isSpaceC c then 32 :: collapseWsF fuel (cs.dropWhile isSpaceC)
    else c :: collapseWsF fuel cs

def collapseWs (t : List Nat) : List Nat := collapseWsF t.length t

/-- The title-cleaning pipeline shared by both classifiers (company_name is
None): lowercase, drop parenthesized asides, drop year tokens, strip the
stop words, collapse whitespace and trim. -/
def cleanTitle (title : List Nat) : List Nat :=
  pyStrip (collapseWs (removeStops (yearSub (parenSub (pyLower title)))))

/-- The ordered taxonomy walk: the first role any of whose keyword phrases
occurs as a substring of the cleaned text wins (the longest-match selection
inside a category does not change which role is returned). -/
def findRole (tax : List (List Nat × List (List Nat))) (t : List Nat) : Option (List Nat) :=
  match tax with
  | [] => none
  | (r, kws) :: rest =>
    if kws.any (fun kw => containsSub kw t) then some r else findRole rest t

/-- Consume an alternation branch written as a literal. -/
def afterAlt (alt t : List Nat) : Option (List Nat) :=
  if isPrefC alt t then some (t.drop alt.length) else none

/-- Consume regex whitespace-plus. -/
def wsPlus (r : List Nat) : Option (List Nat) :=
  let ws := r.takeWhile isSpaceC
  if ws.isEmpty then none else some (r.drop ws.length)

/-- Second group of the graduate-program pattern followed by the trailing
word boundary. -/
def gradProgSecond (r : List Nat) : Bool :=
  (isPrefC (codes "program") r && bAfter (r.drop 7)) ||
  (isPrefC (codes "programme") r && bAfter (r.drop 9)) ||
  (isPrefC (codes "development") r &&
    (match wsPlus (r.drop 11) with
     | some r2 => isPrefC (codes "programme") r2 && bAfter (r2.drop 9)
     | none => false))

/-- The graduate-program pattern at one position (leading boundary checked
by the caller). -/
def gradProgAt (t : List Nat) : Bool :=
  (match afterAlt (codes "graduate") t with
   | some r =>
     match wsPlus r with
     | some r2 => gradProgSecond r2
     | none => false
   | none => false) ||
  (match afterAlt (codes "grad") t with
   | some r =>
     match wsPlus r with
     | some r2 => gradProgSecond r2
     | none => false
   | none => false)

def scanGradProg : Option Nat → List Nat → Bool
  | _, [] => false
  | prev, c :: cs => (boundaryB prev && gradProgAt (c :: cs)) || scanGradProg (some c) cs

/-- re.search for the graduate-program pattern on the lowercased raw title. -/
def hasGradProgram (t : List Nat) : Bool := scanGradProg none t

/-- Second group of the internship-program pattern followed by the trailing
word boundary. -/
def internProgSecond (r : List Nat) : Bool :=
  (isPrefC (codes "program") r && bAfter (r.drop 7)) ||
  (isPrefC (codes "programme") r && bAfter (r.drop 9))

def internProgAt (t : List Nat) : Bool :=
  (match afterAlt (codes "internship") t with
   | some r =>
     match wsPlus r with
     | some r2 => internProgSecond r2
     | none => false
   | none => false) ||
  (match afterAlt (codes "intern") t with
   | some r =>
     match wsPlus r with
     | some r2 => internProgSecond r2
     | none => false
   | none => false)

def scanInternProg : Option Nat → List Nat → Bool
  | _, [] => false
  | prev, c :: cs => (boundaryB prev && internProgAt (c :: cs)) || scanInternProg (some c) cs

/-- re.search for the internship-program pattern on the lowercased raw title. -/
def hasInternProgram (t : List Nat) : Bool := scanInternProg none t

/-- role_indicators of the early check: plain substring tests on the
lowercased raw title. -/
def roleIndicators : List (List Nat) :=
  [codes "data", codes "software", codes "cyber", codes "security",
   codes "cloud", codes "devops", codes "engineer", codes "developer",
   codes "analyst", codes "scientist", codes "architect",
   codes "machine learning", codes "artificial intelligence",
   codes "ai", codes "ml", codes "frontend", codes "backend",
   codes "full stack", codes "fullstack", codes "mobile", codes "web",
   codes "ios", codes "android", codes "qa", codes "test",
   codes "automation", codes "business", codes "product", codes "project",
   codes "consulting"]

/-- ROLE_TAXONOMY from src/jobly/utils/constants.py, the module the
aujobsscraper classifier imports its taxonomy from, in source order. -/
def roleTaxonomy : List (List Nat × List (List Nat)) :=
  [(codes "AI Engineer",
    [codes "ai/ml engineer", codes "ai ml engineer", codes "ai / ml", codes "ai/ml",
     codes "ai & ml", codes "ai engineer", codes "ai software engineer",
     codes "ai developer", codes "ai software developer", codes "ai programmer",
     codes "artificial intelligence engineer", codes "generative ai",
     codes "genai engineer", codes "gen ai", codes "generative ai engineer",
     codes "ai platform engineer", codes "ai devops", codes "ai infrastructure",
     codes "artificial intelligence"]),
   (codes "Machine Learning Engineer",
    [codes "machine learning engineer", codes "ml engineer",
     codes "machine learning developer", codes "ml developer",
     codes "mlops engineer", codes "mlops", codes "deep learning engineer",
     codes "ml software engineer"]),
   (codes "NLP Engineer",
    [codes "nlp engineer", codes "natural language processing",
     codes "conversational ai", codes "prompt engineer", codes "llm engineer",
     codes "large language model"]),
   (codes "Research Scientist",
    [codes "research scientist", codes "computer scientist",
     codes "applied scientist", codes "research fellow",
     codes "computational science", codes "research assistant"]),
   (codes "Data Scientist",
    [codes "data scientist", codes "applied scientist",
     codes "spatial data scientist"]),
   (codes "Data Engineer",
    [codes "data engineer", codes "big data", codes "etl developer",
     codes "azure data engineer", codes "data pipeline"]),
   (codes "Data Analyst",
    [codes "data analyst", codes "reporting analyst", codes "insights analyst",
     codes "commercial analyst"]),
   (codes "Business Intelligence Analyst",
    [codes "business intelligence", codes "bi analyst", codes "bi developer",
     codes "power bi", codes "tableau", codes "analytics"]),
   (codes "Data Architect",
    [codes "data architect", codes "data modeler", codes "database architect"]),
   (codes "Database Administrator",
    [codes "database administrator", codes "database developer",
     codes "sql developer", codes "dba"]),
   (codes "Frontend Developer",
    [codes "frontend developer", codes "front-end developer",
     codes "front end developer", codes "ui developer", codes "ui engineer",
     codes "user interface developer", codes "react developer",
     codes "angular developer", codes "vue developer", codes "vue.js developer",
     codes "javascript developer", codes "typescript developer",
     codes "html/css developer", codes "web ui developer"]),
   (codes "Backend Developer",
    [codes "backend developer", codes "back-end developer",
     codes "back end developer", codes "server-side developer",
     codes "api developer", codes "microservices developer",
     codes "node.js developer", codes "python developer", codes "java developer",
     codes "c# developer", codes ".net developer", codes "go developer",
     codes "golang developer", codes "ruby developer",
     codes "php backend developer"]),
   (codes "Full Stack Developer",
    [codes "full stack", codes "fullstack", codes "full-stack developer",
     codes "javascript full stack", codes "typescript full stack",
     codes "mern stack", codes "mean stack", codes "lamp stack"]),
   (codes "Mobile Developer",
    [codes "mobile developer", codes "ios developer", codes "android developer",
     codes "react native", codes "mobile app developer", codes "flutter developer",
     codes "swift developer", codes "kotlin developer", codes "mobile engineer"]),
   (codes "Web Developer",
    [codes "web developer", codes "website developer",
     codes "web application developer", codes "php developer",
     codes "wordpress developer", codes "drupal developer",
     codes "website designer"]),
   (codes "Game Developer",
    [codes "game developer", codes "game software engineer",
     codes "unity developer", codes "game engineer", codes "unreal developer",
     codes "game programmer", codes "gameplay programmer"]),
   (codes "Embedded Systems Engineer",
    [codes "embedded systems", codes "firmware engineer",
     codes "embedded software", codes "embedded engineer", codes "iot developer",
     codes "iot engineer"]),
   (codes "DevOps Engineer",
    [codes "devops engineer", codes "site reliability engineer", codes "sre",
     codes "ci/cd engineer", codes "devsecops", codes "devops specialist",
     codes "build engineer", codes "release engineer"]),
   (codes "Cloud Engineer",
    [codes "cloud engineer", codes "azure engineer", codes "aws engineer",
     codes "cloud architect", codes "solutions engineer", codes "gcp engineer",
     codes "cloud infrastructure engineer", codes "cloud solutions architect"]),
   (codes "Platform Engineer",
    [codes "platform engineer", codes "infrastructure engineer",
     codes "systems engineer", codes "infrastructure architect"]),
   (codes "Systems Administrator",
    [codes "systems administrator", codes "it support",
     codes "application support", codes "service desk", codes "sysadmin",
     codes "system administrator", codes "it administrator",
     codes "network administrator"]),
   (codes "Network Engineer",
    [codes "network engineer", codes "network architect",
     codes "network administrator", codes "network security engineer",
     codes "cisco engineer", codes "lan/wan engineer"]),
   (codes "Cyber Security Engineer",
    [codes "cyber security", codes "security analyst", codes "infosec",
     codes "detection engineer", codes "security engineer", codes "cybersecurity",
     codes "information security", codes "security consultant",
     codes "penetration tester", codes "ethical hacker",
     codes "security operations"]),
   (codes "QA Engineer",
    [codes "qa engineer", codes "quality assurance engineer",
     codes "quality engineer", codes "software tester", codes "manual tester",
     codes "functional tester"]),
   (codes "Test Automation Engineer",
    [codes "test automation engineer", codes "automation engineer",
     codes "automation tester", codes "test automation",
     codes "selenium engineer", codes "automation qa", codes "sdet",
     codes "software development engineer in test",
     codes "automated testing engineer"]),
   (codes "Performance Test Engineer",
    [codes "performance test engineer", codes "performance tester",
     codes "load test engineer", codes "jmeter engineer"]),
   (codes "Blockchain Developer",
    [codes "blockchain developer", codes "blockchain engineer",
     codes "web3 developer", codes "smart contract developer",
     codes "solidity developer", codes "cryptocurrency developer"]),
   (codes "Computer Vision Engineer",
    [codes "computer vision engineer", codes "computer vision",
     codes "image processing engineer", codes "opencv developer",
     codes "vision ai"]),
   (codes "Robotics Engineer",
    [codes "robotics engineer", codes "robotics developer",
     codes "automation robotics", codes "ros developer",
     codes "robotic systems engineer"]),
   (codes "Graphics Engineer",
    [codes "graphics engineer", codes "graphics programmer",
     codes "rendering engineer", codes "opengl developer",
     codes "directx developer", codes "shader programmer"]),
   (codes "UX/UI Designer",
    [codes "ux designer", codes "ui designer", codes "ux/ui designer",
     codes "user experience designer", codes "product designer",
     codes "interaction designer", codes "visual designer",
     codes "user interface designer"]),
   (codes "UX Researcher",
    [codes "ux researcher", codes "user researcher", codes "ux analyst",
     codes "usability researcher", codes "user experience researcher"]),
   (codes "Software Engineer",
    [codes "software engineer", codes "programmer", codes "application engineer",
     codes "app engineer", codes "software development engineer"]),
   (codes "Software Developer",
    [codes "software developer", codes "developer"]),
   (codes "Engineering Manager",
    [codes "engineering manager", codes "head of engineering",
     codes "development manager", codes "team lead", codes "cto",
     codes "chief technology officer", codes "vp engineering",
     codes "director of engineering"]),
   (codes "Product Manager",
    [codes "product manager", codes "product owner",
     codes "digital product manager", codes "technical product manager",
     codes "product lead"]),
   (codes "Project Manager",
    [codes "project manager", codes "technical project manager",
     codes "it project manager", codes "scrum master", codes "agile coach",
     codes "delivery manager"]),
   (codes "Business Analyst",
    [codes "business analyst", codes "technical business analyst",
     codes "process analyst", codes "systems analyst",
     codes "requirements analyst"]),
   (codes "Solutions Architect",
    [codes "solutions architect", codes "enterprise architect",
     codes "technical architect", codes "solution architect",
     codes "software architect", codes "system architect"]),
   (codes "Quantitative Analyst",
    [codes "quantitative analyst", codes "quant", codes "actuary",
     codes "algorithmic trader", codes "quantitative developer",
     codes "quant developer"]),
   (codes "GIS Analyst",
    [codes "gis analyst", codes "gis", codes "spatial analyst",
     codes "geospatial", codes "gis developer", codes "geospatial analyst"]),
   (codes "Executive Leadership",
    [codes "head of", codes "director of", codes "chief", codes "partner",
     codes "vp", codes "vice president", codes "executive", codes "c-level"]),
   (codes "Data Leadership",
    [codes "head of data", codes "manager data", codes "data manager",
     codes "data lead", codes "master data", codes "mdm"]),
   (codes "Technical Lead",
    [codes "tech lead", codes "technical lead", codes "lead developer",
     codes "delivery lead", codes "initiative lead", codes "architecture lead"]),
   (codes "Lecturer",
    [codes "lecturer", codes "professor", codes "phd", codes "research fellow",
     codes "faculty", codes "teaching staff", codes "academic", codes "tutor",
     codes "instructor", codes "educator"]),
   (codes "Health Informatics",
    [codes "clinical coder", codes "clinical data", codes "emr", codes "casemix",
     codes "health data", codes "medical coder", codes "cognitive rater",
     codes "health informatics", codes "clinical informatics"]),
   (codes "Data Governance & Compliance",
    [codes "data governance", codes "data protection", codes "data integrity",
     codes "privacy", codes "compliance", codes "audit", codes "risk",
     codes "policy", codes "data quality", codes "data steward"]),
   (codes "Strategy & Transformation",
    [codes "digital transformation", codes "strategy", codes "roadmap",
     codes "change manager", codes "business development",
     codes "transformation lead", codes "innovation manager"]),
   (codes "Technical Consultant",
    [codes "consultant", codes "advisor", codes "implementation specialist",
     codes "integration specialist", codes "solution specialist",
     codes "technical advisor", codes "it consultant"]),
   (codes "Graduate Program",
    [codes "graduate", codes "cadet", codes "intern", codes "trainee",
     codes "early career", codes "digital futures", codes "graduate program"]),
   (codes "SEO & Digital Marketing",
    [codes "seo", codes "search engine optimization", codes "digital marketing",
     codes "marketing technology", codes "martech", codes "growth hacker",
     codes "digital strategist"]),
   (codes "Intelligence & Security",
    [codes "intelligence officer", codes "tspv", codes "security clearance",
     codes "defense", codes "intelligence analyst"])]

/-- ROLE_TAXONOMY defined inline in src/jobly/utils/scraper_utils.py
(lines 115..243), in source order. -/
def roleTaxonomyJobly : List (List Nat × List (List Nat)) :=
  [(codes "AI Engineer",
    [codes "ai/ml engineer", codes "ai ml engineer", codes "ai / ml", codes "ai/ml",
     codes "ai & ml", codes "ai engineer", codes "ai software engineer",
     codes "ai developer", codes "ai software developer", codes "ai programmer",
     codes "artificial intelligence engineer", codes "generative ai",
     codes "genai engineer", codes "gen ai", codes "generative ai engineer",
     codes "ai platform engineer", codes "ai devops", codes "ai infrastructure",
     codes "artificial intelligence"]),
   (codes "Machine Learning Engineer",
    [codes "machine learning engineer", codes "ml engineer",
     codes "machine learning developer", codes "ml developer",
     codes "mlops engineer", codes "mlops", codes "deep learning engineer",
     codes "ml software engineer"]),
   (codes "NLP Engineer",
    [codes "nlp engineer", codes "natural language processing",
     codes "conversational ai", codes "prompt engineer", codes "llm engineer",
     codes "large language model"]),
   (codes "Research Scientist",
    [codes "research scientist", codes "computer scientist",
     codes "applied scientist", codes "research fellow",
     codes "computational science", codes "research assistant"]),
   (codes "Data Scientist",
    [codes "data scientist", codes "applied scientist",
     codes "spatial data scientist"]),
   (codes "Data Engineer",
    [codes "data engineer", codes "big data", codes "etl developer",
     codes "azure data engineer", codes "data pipeline"]),
   (codes "Data Analyst",
    [codes "data analyst", codes "reporting analyst", codes "insights analyst",
     codes "commercial analyst"]),
   (codes "Business Intelligence Analyst",
    [codes "business intelligence", codes "bi analyst", codes "bi developer",
     codes "power bi", codes "tableau", codes "analytics"]),
   (codes "Data Architect",
    [codes "data architect", codes "data modeler", codes "database architect"]),
   (codes "Database Administrator",
    [codes "database administrator", codes "database developer",
     codes "sql developer", codes "dba"]),
   (codes "DevOps Engineer",
    [codes "devops engineer", codes "site reliability engineer", codes "sre",
     codes "ci/cd engineer", codes "devsecops"]),
   (codes "Cloud Engineer",
    [codes "cloud engineer", codes "azure engineer", codes "aws engineer",
     codes "cloud architect", codes "solutions engineer", codes "gcp engineer"]),
   (codes "Platform Engineer",
    [codes "platform engineer", codes "infrastructure engineer",
     codes "systems engineer"]),
   (codes "Systems Administrator",
    [codes "systems administrator", codes "it support",
     codes "application support", codes "service desk", codes "sysadmin"]),
   (codes "Cyber Security Engineer",
    [codes "cyber security", codes "security analyst", codes "infosec",
     codes "detection engineer", codes "security engineer",
     codes "cybersecurity"]),
   (codes "QA Engineer",
    [codes "qa engineer", codes "test engineer", codes "software tester",
     codes "automation engineer", codes "quality assurance",
     codes "test automation"]),
   (codes "Embedded Systems Engineer",
    [codes "embedded systems", codes "firmware engineer",
     codes "embedded software", codes "embedded engineer"]),
   (codes "Game Developer",
    [codes "game developer", codes "game software engineer",
     codes "unity developer", codes "game engineer"]),
   (codes "Mobile Developer",
    [codes "mobile developer", codes "ios developer", codes "android developer",
     codes "react native", codes "mobile app developer", codes "flutter"]),
   (codes "Web Developer",
    [codes "web developer", codes "react developer", codes "angular developer",
     codes "vue developer", codes "php developer", codes "website designer",
     codes "frontend developer"]),
   (codes "Full Stack Developer",
    [codes "full stack", codes "fullstack", codes "javascript full stack",
     codes "typescript full stack"]),
   (codes "Software Engineer",
    [codes "software engineer", codes "developer", codes "programmer",
     codes "backend", codes "frontend", codes "application engineer",
     codes "app engineer"]),
   (codes "Engineering Manager",
    [codes "engineering manager", codes "head of engineering",
     codes "development manager", codes "team lead", codes "cto",
     codes "chief technology officer"]),
   (codes "Product Manager",
    [codes "product manager", codes "product owner",
     codes "digital product manager"]),
   (codes "Business Analyst",
    [codes "business analyst", codes "technical business analyst",
     codes "process analyst"]),
   (codes "Solutions Architect",
    [codes "solutions architect", codes "enterprise architect",
     codes "technical architect", codes "solution architect"]),
   (codes "Quantitative Analyst",
    [codes "quantitative analyst", codes "quant", codes "actuary",
     codes "algorithmic trader"]),
   (codes "GIS Analyst",
    [codes "gis analyst", codes "gis", codes "spatial analyst",
     codes "geospatial"]),
   (codes "Technical Writer",
    [codes "technical writer", codes "documentation engineer"]),
   (codes "Sales Engineer",
    [codes "sales engineer", codes "field application engineer",
     codes "presales engineer"]),
   (codes "Executive Leadership",
    [codes "head of", codes "director of", codes "chief", codes "partner",
     codes "vp", codes "vice president", codes "executive"]),
   (codes "Data Leadership",
    [codes "head of data", codes "manager data", codes "data manager",
     codes "data lead", codes "master data", codes "mdm"]),
   (codes "Technical Lead",
    [codes "tech lead", codes "technical lead", codes "lead developer",
     codes "delivery lead", codes "initiative lead"]),
   (codes "Lecturer",
    [codes "lecturer", codes "professor", codes "phd", codes "research fellow",
     codes "faculty", codes "teaching staff", codes "academic", codes "tutor"]),
   (codes "Health Informatics",
    [codes "clinical coder", codes "clinical data", codes "emr", codes "casemix",
     codes "health data", codes "medical coder", codes "cognitive rater"]),
   (codes "Data Governance & Compliance",
    [codes "data governance", codes "data protection", codes "data integrity",
     codes "privacy", codes "compliance", codes "audit", codes "risk",
     codes "policy"]),
   (codes "Strategy & Transformation",
    [codes "digital transformation", codes "strategy", codes "roadmap",
     codes "change manager", codes "business development"]),
   (codes "Technical Consultant",
    [codes "consultant", codes "advisor", codes "implementation specialist",
     codes "integration specialist", codes "solution specialist"]),
   (codes "Graduate Program",
    [codes "graduate", codes "cadet", codes "intern", codes "trainee",
     codes "early career", codes "digital futures"]),
   (codes "Technical Support",
    [codes "support advisor", codes "help desk", codes "service desk",
     codes "support specialist", codes "technical support"]),
   (codes "Operations & Logistics",
    [codes "coordinator", codes "scheduler", codes "logistics",
     codes "weighbridge", codes "gatehouse"]),
   (codes "SEO & Digital Marketing",
    [codes "seo", codes "search engine optimization", codes "digital marketing",
     codes "marketing technology", codes "martech"]),
   (codes "Intelligence & Security",
    [codes "intelligence officer", codes "tspv", codes "security clearance",
     codes "defense"])]

/-- src/aujobsscraper/utils/scraper_utils.py extract_job_role, the variant
with the step-0 early pattern check run on the raw lowercased title before
any stop-word stripping.  E is the embedding-similarity fallback of step 3,
applied to the cleaned title. -/
def extract_job_role (E : List Nat → List Nat) (title : List Nat) : List Nat :=
  if title = [] then codes "Specialized" else
  let titleLower := pyLower title
  if (hasGradProgram titleLower || hasInternProgram titleLower) &&
     !(roleIndicators.any (fun ind => containsSub ind titleLower)) then
    codes "Graduate Program"
  else
    let cleaned := cleanTitle title
    if cleaned = [] then codes "Specialized" else
    match findRole roleTaxonomy cleaned with
    | some r => r
    | none => E cleaned

/-- src/jobly/utils/scraper_utils.py extract_job_role: no early pattern
check; cleaning, then the ordered walk of the inline taxonomy, then the
embedding fallback E. -/
def extract_job_role_jobly (E : List Nat → List Nat) (title : List Nat) : List Nat :=
  if title = [] then codes "Specialized" else
  let cleaned := cleanTitle title
  if cleaned = [] then codes "Specialized" else
  match findRole roleTaxonomyJobly cleaned with
  | some r => r
  | none => E cleaned

/-! ### UpsertMerger (src/jobly/db/job_database.py)

The hosted store is modelled as a list of rows; the insert appends and the
two sequential row updates of _update_existing_job (the list-field merge of
update_duplicate_job followed by _update_scalar_fields) are composed on the
matched row.  A candidate is modelled in the shape produced by
_prepare_job_data (the dictionary plumbing of plural/singular keys is not
part of the merge semantics). -/

/-- A candidate record as prepared by _prepare_job_data.  Optional fields
may be absent (none); present string fields may still be empty, which
Python treats as falsy in the scalar merge. -/
structure PreparedJob where
  job_title : List Nat
  job_role : List Nat
  company : List Nat
  description : List Nat
  locations : List Loc
  platforms : List (List Nat)
  source_urls : List (List Nat)
  salary : Option SalaryN
  seniority : Option (List Nat)
  posted_at : Option (List Nat)
  closing_date : Option (List Nat)
deriving DecidableEq

/-- A persisted row of the job_postings table. -/
structure JobRecord where
  id : Nat
  fingerprint : List Nat
  job_title : List Nat
  job_role : List Nat
  company : List Nat
  description : List Nat
  locations : List Loc
  platforms : List (List Nat)
  source_urls : List (List Nat)
  salary : Option SalaryN
  seniority : Option (List Nat)
  posted_at : Option (List Nat)
  closing_date : Option (List Nat)
  created_at : Nat
  updated_at : Nat
deriving DecidableEq

structure UpsertResult where
  id : Nat
  status : List Nat
  fingerprint : List Nat
deriving DecidableEq

/-- Python "new or existing" on a string field: the empty string is falsy. -/
def orStr (n e : List Nat) : List Nat := if n = [] then e else n

/-- Python "new or existing" on an optional string field: None and the
empty string are falsy. -/
def orOptStr (n e : Option (List Nat)) : Option (List Nat) :=
  match n with
  | some s => if s = [] then e else some s
  | none => e

/-- Python "new or existing" on the salary field: a present salary dict is
always nonempty, hence truthy. -/
def orSal (n e : Option SalaryN) : Option SalaryN :=
  match n with
  | some s => some s
  | none => e

/-- _merge_locations: concatenate and drop later duplicates of a
(city, state) pair. -/
def mergeLocations (current new : List Loc) : List Loc :=
  dedupBy (fun l => (l.city, l.state)) (current ++ new)

/-- _merge_unique_values: list(set(current + new)).  A Python set has no
specified order; the merge is modelled keeping first occurrences, and the
theorems about it state only membership and duplicate-freedom. -/
def mergeUniqueValues (current new : List (List Nat)) : List (List Nat) :=
  dedupBy (fun x => x) (current ++ new)

/-- The row update performed by update_duplicate_job: merge the three
list-valued fields and stamp updated_at. -/
def updateDuplicate (r : JobRecord) (locations : List Loc)
    (source_urls platforms : List (List Nat)) (now : Nat) : JobRecord :=
  { r with
    locations := mergeLocations r.locations locations
    source_urls := mergeUniqueValues r.source_urls source_urls
    platforms := mergeUniqueValues r.platforms platforms
    updated_at := now }

/-- The row update performed by _update_scalar_fields: each scalar field
becomes the new value when truthy, else the existing value. -/
def updateScalars (r : JobRecord) (nd : PreparedJob) : JobRecord :=
  { r with
    job_title := orStr nd.job_title r.job_title
    job_role := orStr nd.job_role r.job_role
    company := orStr nd.company r.company
    description := orStr nd.description r.description
    salary := orSal nd.salary r.salary
    seniority := orOptStr nd.seniority r.seniority
    posted_at := orOptStr nd.posted_at r.posted_at
    closing_date := orOptStr nd.closing_date r.closing_date }

/-- _find_by_fingerprint: the first row whose fingerprint matches. -/
def findByFingerprint (db : List JobRecord) (fp : List Nat) : Option JobRecord :=
  db.find? (fun r => r.fingerprint == fp)

/-- An update .eq("id", i) applies the row transformation to every row with
that id (ids are unique in the store). -/
def updateById (db : List JobRecord) (i : Nat) (f : JobRecord → JobRecord) : List JobRecord :=
  db.map (fun r => if r.id = i then f r else r)

/-- _insert_new_job: the freshly stamped row appended to the table. -/
def mkRecord (nextId : Nat) (fp : List Nat) (jd : PreparedJob) (now : Nat) : JobRecord :=
  { id := nextId
    fingerprint := fp
    job_title := jd.job_title
    job_role := jd.job_role
    company := jd.company
    description := jd.description
    locations := jd.locations
    platforms := jd.platforms
    source_urls := jd.source_urls
    salary := jd.salary
    seniority := jd.seniority
    posted_at := jd.posted_at
    closing_date := jd.closing_date
    created_at := now
    updated_at := now }

/-- upsert_job: fingerprint the candidate, look up an existing row, and
either merge-update (status "updated") or insert (status "inserted").
Returns the result dictionary and the table after the operation. -/
def upsert_job (db : List JobRecord) (nextId now : Nat) (jd : PreparedJob) :
    UpsertResult × List JobRecord :=
  let fp := generateFingerprint jd.company jd.job_title
  match findByFingerprint db fp with
  | some existing =>
    (⟨existing.id, codes "updated", fp⟩,
     updateById db existing.id
       (fun r => updateScalars (updateDuplicate r jd.locations jd.source_urls jd.platforms now) jd))
  | none =>
    (⟨nextId, codes "inserted", fp⟩, db ++ [mkRecord nextId fp jd now])

/-! ### Concrete fixtures for the upsert merge scenario of the spec:
posting A (Sydney/NSW, seek, u1) inserted into an empty table, then
posting B (same company and title, Melbourne/VIC, prosple, u2) upserted. -/

def jobA : PreparedJob :=
  { job_title := codes "Software Engineer"
    job_role := codes "Software Engineer"
    company := codes "Acme"
    description := codes "desc A"
    locations := [⟨codes "Sydney", codes "NSW"⟩]
    platforms := [codes "seek"]
    source_urls := [codes "u1"]
    salary := none
    seniority := none
    posted_at := none
    closing_date := none }

def jobB : PreparedJob :=
  { job_title := codes "Software Engineer"
    job_role := codes "Software Engineer"
    company := codes "Acme"
    description := codes ""
    locations := [⟨codes "Melbourne", codes "VIC"⟩]
    platforms := [codes "prosple"]
    source_urls := [codes "u2"]
    salary := none
    seniority := none
    posted_at := none
    closing_date := none }

/-- The table after inserting posting A into an empty table. -/
def dbAfterA : List JobRecord := (upsert_job [] 1 100 jobA).2

/-- The embedding fallback in its documented degraded mode: any provider
error is caught and the classifier returns "Specialized". -/
def embFail : List Nat → List Nat := fun _ => codes "Specialized"

/-! ### Helper lemmas -/

lemma lowerC_lowerC (c : Nat) : lowerC (lowerC c) = lowerC c := by
  simp only [lowerC]; split_ifs <;> omega

lemma upperC_lowerC (c : Nat) : upperC (lowerC c) = upperC c := by
  simp only [lowerC, upperC]; split_ifs <;> omega

lemma isAlphaC_lowerC (c : Nat) : isAlphaC (lowerC c) = isAlphaC c := by
  rw [Bool.eq_iff_iff]
  simp only [isAlphaC, lowerC, Bool.or_eq_true, Bool.and_eq_true, decide_eq_true_eq]
  split_ifs with h <;> omega

lemma lowerC_of_space (c : Nat) (h : isSpaceC c = true) : lowerC c = c := by
  simp only [isSpaceC, Bool.or_eq_true, beq_iff_eq] at h
  simp only [lowerC]
  split_ifs with hif
  · omega
  · rfl

lemma pyLower_idem (s : List Nat) : pyLower (pyLower s) = pyLower s := by
  simp only [pyLower, List.map_map]
  exact List.map_congr_left (fun c _ => lowerC_lowerC c)

lemma titleAux_lower (b : Bool) (s : List Nat) :
    titleAux b (pyLower s) = titleAux b s := by
  induction s generalizing b with
  | nil => rfl
  | cons c cs ih =>
    simp only [pyLower, List.map_cons, titleAux, isAlphaC_lowerC]
    rw [show List.map lowerC cs = pyLower cs from rfl, ih]
    congr 1
    cases b <;> simp [upperC_lowerC, lowerC_lowerC]

lemma pyTitle_lower (s : List Nat) : pyTitle (pyLower s) = pyTitle s :=
  titleAux_lower false s

lemma pyTitle_ne_nil (s : List Nat) (h : s ≠ []) : pyTitle s ≠ [] := by
  cases s with
  | nil => exact absurd rfl h
  | cons c cs => simp [pyTitle, titleAux]

lemma pyLower_ne_nil (s : List Nat) (h : pyLower s ≠ []) : s ≠ [] := by
  cases s <;> simp_all [pyLower]

lemma mem_of_isPrefC {p t : List Nat} (h : isPrefC p t = true) :
    ∀ c ∈ p, c ∈ t := by
  induction p generalizing t with
  | nil => simp
  | cons a as ih =>
    cases t with
    | nil => simp [isPrefC] at h
    | cons b bs =>
      simp only [isPrefC, Bool.and_eq_true, beq_iff_eq] at h
      intro c hc
      rcases List.mem_cons.mp hc with rfl | hc
      · exact h.1 ▸ List.mem_cons_self _ _
      · exact List.mem_cons_of_mem _ (ih h.2 c hc)

lemma mem_of_containsSub {p t : List Nat} (h : containsSub p t = true) :
    ∀ c ∈ p, c ∈ t := by
  induction t with
  | nil => simpa [containsSub] using mem_of_isPrefC h
  | cons b bs ih =>
    simp only [containsSub, Bool.or_eq_true] at h
    rcases h with h | h
    · exact mem_of_isPrefC h
    · exact fun c hc => List.mem_cons_of_mem _ (ih h c hc)

lemma containsSub_eq_false_of_not_mem {p t : List Nat} (c : Nat)
    (hc : c ∈ p) (h : c ∉ t) : containsSub p t = false := by
  by_contra hne
  exact h (mem_of_containsSub (Bool.of_not_eq_false hne) c hc)

lemma containsSub_append_of_right {p t : List Nat} (s : List Nat)
    (h : containsSub p t = true) : containsSub p (s ++ t) = true := by
  induction s with
  | nil => simpa using h
  | cons a as ih => simp [containsSub, ih]

lemma takeWhile_append_of_all {p : Nat → Bool} {l : List Nat} (t : List Nat)
    (h : ∀ x ∈ l, p x = true) : (l ++ t).takeWhile p = l ++ t.takeWhile p := by
  induction l with
  | nil => simp
  | cons a as ih =>
    simp only [List.cons_append, List.takeWhile_cons, h a (List.mem_cons_self a as)]
    simp [ih (fun x hx => h x (List.mem_cons_of_mem _ hx))]

lemma dropWhile_append_of_all {p : Nat → Bool} {l : List Nat} (t : List Nat)
    (h : ∀ x ∈ l, p x = true) : (l ++ t).dropWhile p = t.dropWhile p := by
  induction l with
  | nil => simp
  | cons a as ih =>
    simp only [List.cons_append, List.dropWhile_cons, h a (List.mem_cons_self a as)]
    simp [ih (fun x hx => h x (List.mem_cons_of_mem _ hx))]

lemma dropWhile_append_of_ne_nil {p : Nat → Bool} {l : List Nat} (t : List Nat)
    (h : l.dropWhile p ≠ []) : (l ++ t).dropWhile p = l.dropWhile p ++ t := by
  induction l with
  | nil => exact absurd rfl h
  | cons a as ih =>
    by_cases hp : p a = true
    · simp only [List.dropWhile_cons, hp, if_true] at h
      simp only [List.cons_append, List.dropWhile_cons, hp, if_true]
      exact ih h
    · simp only [Bool.not_eq_true] at hp
      simp [List.dropWhile_cons, hp]

lemma lstripBy_append_of_all {l : List Nat} (t : List Nat)
    (h : ∀ x ∈ l, isSpaceC x = true) :
    lstripBy isSpaceC (l ++ t) = lstripBy isSpaceC t :=
  dropWhile_append_of_all t h

lemma rstripBy_append_of_all {w : List Nat} (y : List Nat)
    (h : ∀ x ∈ w, isSpaceC x = true) :
    rstripBy isSpaceC (y ++ w) = rstripBy isSpaceC y := by
  simp only [rstripBy, List.reverse_append]
  rw [dropWhile_append_of_all _ (fun x hx => h x (List.mem_reverse.mp hx))]

lemma dropWhile_eq_nil_of_all {p : Nat → Bool} {l : List Nat}
    (h : ∀ x ∈ l, p x = true) : l.dropWhile p = [] := by
  induction l with
  | nil => rfl
  | cons a as ih =>
    simp only [List.dropWhile_cons, h a (List.mem_cons_self a as), if_true]
    exact ih (fun x hx => h x (List.mem_cons_of_mem _ hx))

lemma pyStrip_append_right {x w : List Nat} (h : ∀ c ∈ w, isSpaceC c = true) :
    pyStrip (x ++ w) = pyStrip x := by
  simp only [pyStrip]
  by_cases hx : lstripBy isSpaceC x = []
  · have hall : ∀ c ∈ x, isSpaceC c = true := by
      intro c hc
      by_contra hcc
      have : x.dropWhile isSpaceC ≠ [] := by
        intro hnil
        have := List.dropWhile_eq_nil_iff.mp hnil c hc
        exact hcc this
      exact this hx
    have h2 : lstripBy isSpaceC (x ++ w) = [] := by
      simp only [lstripBy]
      exact dropWhile_eq_nil_of_all (by
        intro c hc
        rcases List.mem_append.mp hc with hc | hc
        · exact hall c hc
        · exact h c hc)
    rw [h2, hx]
  · have h2 : lstripBy isSpaceC (x ++ w) = lstripBy isSpaceC x ++ w :=
      dropWhile_append_of_ne_nil w hx
    rw [h2, rstripBy_append_of_all _ h]

lemma pyStrip_append_left {y w : List Nat} (h : ∀ c ∈ w, isSpaceC c = true) :
    pyStrip (w ++ y) = pyStrip y := by
  simp only [pyStrip, lstripBy_append_of_all y h]

lemma pyStrip_pad {x w1 w2 : List Nat}
    (h1 : ∀ c ∈ w1, isSpaceC c = true) (h2 : ∀ c ∈ w2, isSpaceC c = true) :
    pyStrip (w1 ++ x ++ w2) = pyStrip x := by
  rw [List.append_assoc, pyStrip_append_left h1, pyStrip_append_right h2]

lemma pyLower_append (a b : List Nat) : pyLower (a ++ b) = pyLower a ++ pyLower b := by
  simp [pyLower]

lemma pyLower_of_all_space {w : List Nat} (h : ∀ c ∈ w, isSpaceC c = true) :
    pyLower w = w := by
  induction w with
  | nil => rfl
  | cons a as ih =>
    simp only [pyLower, List.map_cons]
    rw [lowerC_of_space a (h a (List.mem_cons_self a as))]
    have h2 : pyLower as = as := ih (fun c hc => h c (List.mem_cons_of_mem _ hc))
    rw [show List.map lowerC as = pyLower as from rfl, h2]

lemma mem_of_mem_dedupByAux {α β : Type} [DecidableEq β] (key : α → β)
    (seen : List β) (l : List α) (x : α) (h : x ∈ dedupByAux key seen l) : x ∈ l := by
  induction l generalizing seen with
  | nil => simp [dedupByAux] at h
  | cons a as ih =>
    simp only [dedupByAux] at h
    split_ifs at h with hk
    · exact List.mem_cons_of_mem _ (ih seen h)
    · rcases List.mem_cons.mp h with rfl | h
      · exact List.mem_cons_self _ _
      · exact List.mem_cons_of_mem _ (ih _ h)

lemma dedupByAux_key_complete {α β : Type} [DecidableEq β] (key : α → β)
    (seen : List β) (l : List α) (x : α) (hx : x ∈ l) :
    key x ∈ seen ∨ ∃ y ∈ dedupByAux key seen l, key y = key x := by
  induction l generalizing seen with
  | nil => simp at hx
  | cons a as ih =>
    simp only [dedupByAux]
    rcases List.mem_cons.mp hx with rfl | hx
    · by_cases hk : key x ∈ seen
      · exact Or.inl hk
      · right
        rw [if_neg hk]
        exact ⟨x, List.mem_cons_self _ _, rfl⟩
    · by_cases hk : key a ∈ seen
      · rw [if_pos hk]
        exact ih seen hx
      · rw [if_neg hk]
        rcases ih (key a :: seen) hx with h | ⟨y, hy, hky⟩
        · rcases List.mem_cons.mp h with h | h
          · exact Or.inr ⟨a, List.mem_cons_self _ _, h.symm⟩
          · exact Or.inl h
        · exact Or.inr ⟨y, List.mem_cons_of_mem _ hy, hky⟩

lemma dedupByAux_keys_nodup {α β : Type} [DecidableEq β] (key : α → β)
    (seen : List β) (l : List α) :
    ((dedupByAux key seen l).map key).Nodup ∧
      ∀ y ∈ dedupByAux key seen l, key y ∉ seen := by
  induction l generalizing seen with
  | nil => simp [dedupByAux]
  | cons a as ih =>
    simp only [dedupByAux]
    split_ifs with hk
    · exact ih seen
    · obtain ⟨ihn, ihs⟩ := ih (key a :: seen)
      refine ⟨?_, ?_⟩
      · simp only [List.map_cons, List.nodup_cons]
        refine ⟨?_, ihn⟩
        intro hmem
        rcases List.mem_map.mp hmem with ⟨y, hy, hky⟩
        exact ihs y hy (hky ▸ List.mem_cons_self _ _)
      · intro y hy
        rcases List.mem_cons.mp hy with rfl | hy
        · exact hk
        · intro hys
          exact ihs y hy (List.mem_cons_of_mem _ hys)

lemma mem_dedupBy_id_iff (l : List (List Nat)) (x : List Nat) :
    x ∈ dedupBy (fun y => y) l ↔ x ∈ l := by
  constructor
  · exact mem_of_mem_dedupByAux _ [] l x
  · intro hx
    rcases dedupByAux_key_complete (fun y => y) [] l x hx with h | ⟨y, hy, hky⟩
    · simp at h
    · exact hky ▸ hy

lemma dedupBy_id_nodup (l : List (List Nat)) : (dedupBy (fun y => y) l).Nodup := by
  have h := (dedupByAux_keys_nodup (fun y : List Nat => y) [] l).1
  simpa using h

lemma isPrefC_take {p t : List Nat} (h : isPrefC p t = true) :
    t.take p.length = p := by
  induction p generalizing t with
  | nil => simp
  | cons a as ih =>
    cases t with
    | nil => simp [isPrefC] at h
    | cons b bs =>
      simp only [isPrefC, Bool.and_eq_true, beq_iff_eq] at h
      simp [List.take_cons, h.1.symm, ih h.2]

lemma isPrefCI_lower_eq {a t : List Nat} (h : isPrefCI (pyLower a) t = true) :
    pyLower (t.take a.length) = pyLower a := by
  have hl : (pyLower a).length = a.length := by simp [pyLower]
  have h2 := isPrefC_take h
  rw [hl] at h2
  have h3 : (pyLower (t.take a.length)).length ≤ a.length := by
    simp only [pyLower, List.length_map]
    exact le_trans (List.length_take_le _ _) (le_refl _)
  calc pyLower (t.take a.length)
      = (pyLower (t.take a.length)).take a.length := (List.take_of_length_le h3).symm
    _ = pyLower a := by rw [← hl] at h2 ⊢; exact h2

lemma lookupCity_mem {k v : List Nat} (h : lookupCity k = some v) :
    (k, v) ∈ cityToState := by
  simp only [lookupCity, Option.map_eq_some'] at h
  rcases h with ⟨p, hp, hv⟩
  have hmem := List.mem_of_find?_eq_some hp
  have hpk := List.find?_some hp
  simp only [beq_iff_eq] at hpk
  have : p = (k, v) := by
    cases p
    simp_all
  exact this ▸ hmem

lemma cityToState_entries_ne_nil :
    ∀ p ∈ cityToState, p.1 ≠ [] ∧ p.2 ≠ [] := by decide

lemma australianStates_ne_nil : ∀ a ∈ australianStates, a ≠ [] := by decide

lemma stateAt_some {t a : List Nat} (h : stateAt t = some a) :
    a ∈ australianStates ∧ pyLower (t.take a.length) = pyLower a := by
  have hmem := List.mem_of_find?_eq_some h
  have hp := List.find?_some h
  simp only [Bool.and_eq_true] at hp
  exact ⟨hmem, isPrefCI_lower_eq hp.1⟩

lemma findStateAux_some :
    ∀ (t : List Nat) (prev : Option Nat) (i : Nat) (a : List Nat),
      findStateAux prev t = some (i, a) → stateAt (t.drop i) = some a := by
  intro t
  induction t with
  | nil => intro prev i a h; simp [findStateAux] at h
  | cons c cs ih =>
    intro prev i a h
    simp only [findStateAux] at h
    rcases hb : (if boundaryB prev then stateAt (c :: cs) else none) with _ | a0
    · rw [hb] at h
      simp only [Option.map_eq_some'] at h
      rcases h with ⟨⟨j, a1⟩, hj, hji⟩
      have := ih (some c) j a1 hj
      cases hji
      simpa [List.drop_succ_cons] using this
    · rw [hb] at h
      cases h
      split_ifs at hb
      simp_all

lemma findState_slice_ne_nil {t : List Nat} {i : Nat} {a : List Nat}
    (h : findState t = some (i, a)) :
    a ∈ australianStates ∧ (t.drop i).take a.length ≠ [] := by
  have hs := findStateAux_some t none i a h
  obtain ⟨hmem, hlow⟩ := stateAt_some hs
  refine ⟨hmem, ?_⟩
  intro hnil
  rw [hnil] at hlow
  have : pyLower a = [] := hlow.symm
  have ha : a = [] := by
    cases a
    · rfl
    · simp [pyLower] at this
  exact australianStates_ne_nil a hmem ha

lemma cityFromParts_some :
    ∀ (ps : List (List Nat)) (l : Loc), cityFromParts ps = some l →
      ∃ p, lookupCity (pyLower p) = some l.state ∧ l.city = pyTitle p := by
  intro ps
  induction ps with
  | nil => intro l h; simp [cityFromParts] at h
  | cons p ps ih =>
    intro l h
    simp only [cityFromParts] at h
    rcases hl : lookupCity (pyLower p) with _ | st
    · rw [hl] at h
      exact ih l h
    · rw [hl] at h
      cases h
      exact ⟨p, hl, rfl⟩

lemma pyUpper_ne_nil {s : List Nat} (h : s ≠ []) : pyUpper s ≠ [] := by
  cases s <;> simp_all [pyUpper]

lemma isCityKey_parts {k : List Nat} (h : isCityKey k = true) :
    k ≠ [] ∧ ∃ st, lookupCity k = some st ∧ st ≠ [] := by
  simp only [isCityKey, Option.isSome_iff_exists] at h
  rcases h with ⟨st, hst⟩
  have hmem := lookupCity_mem hst
  have hne := cityToState_entries_ne_nil _ hmem
  exact ⟨hne.1, st, hst, hne.2⟩

lemma stateFoundBranch_some {location : List Nat} {i : Nat} {a : List Nat} {l : Loc}
    (h : stateFoundBranch location i a = some l)
    (hne : (location.drop i).take a.length ≠ []) :
    l.city ≠ [] ∧
      ∃ g, isCityKey g = true ∧ l.city = pyTitle g ∧ l.state ≠ [] := by
  simp only [stateFoundBranch] at h
  split_ifs at h with hck
  · cases h
    obtain ⟨hkne, _, _, _⟩ := isCityKey_parts hck
    refine ⟨pyTitle_ne_nil _ (pyLower_ne_nil _ hkne), _, hck, ?_, ?_⟩
    · rw [pyTitle_lower]
    · exact pyUpper_ne_nil hne

lemma noStateBranch_some {location : List Nat} {l : Loc}
    (h : noStateBranch location = some l) :
    l.city ≠ [] ∧
      ∃ g, isCityKey g = true ∧ l.city = pyTitle g ∧ l.state ≠ [] := by
  simp only [noStateBranch] at h
  split_ifs at h with hcomma
  · rcases cityFromParts_some _ _ h with ⟨p, hlp, hcity⟩
    have hsome : isCityKey (pyLower p) = true := by
      simp [isCityKey, hlp]
    obtain ⟨hkne, _, _, _⟩ := isCityKey_parts hsome
    refine ⟨hcity ▸ pyTitle_ne_nil p (pyLower_ne_nil _ hkne),
      pyLower p, hsome, ?_, ?_⟩
    · rw [hcity, pyTitle_lower]
    · exact (cityToState_entries_ne_nil _ (lookupCity_mem hlp)).2
  · rcases hlk : lookupCity (pyLower location) with _ | st <;> rw [hlk] at h
    · exact absurd h (by simp)
    · cases h
      have hsome : isCityKey (pyLower location) = true := by
        simp [isCityKey, hlk]
      obtain ⟨hkne, _, _, _⟩ := isCityKey_parts hsome
      refine ⟨pyTitle_ne_nil _ (pyLower_ne_nil _ hkne),
        pyLower location, hsome, ?_, ?_⟩
      · rw [pyTitle_lower]
      · exact (cityToState_entries_ne_nil _ (lookupCity_mem hlk)).2

lemma processLocation_some {raw : List Nat} {l : Loc}
    (h : processLocation raw = some l) :
    l.city ≠ [] ∧
      ((l.city = codes "Australia" ∧ l.state = []) ∨
        ∃ g, isCityKey g = true ∧ l.city = pyTitle g ∧ l.state ≠ []) := by
  simp only [processLocation] at h
  split at h
  · exact absurd h (by simp)
  · split at h
    · cases h
      exact ⟨by decide, Or.inl ⟨rfl, rfl⟩⟩
    · split at h
      · exact absurd h (by simp)
      · split at h
        · exact absurd h (by simp)
        · split at h
          case _ i a hfs =>
            have hslice := findState_slice_ne_nil hfs
            obtain ⟨hc, hg⟩ := stateFoundBranch_some h hslice.2
            exact ⟨hc, Or.inr hg⟩
          case _ hfs =>
            obtain ⟨hc, hg⟩ := noStateBranch_some h
            exact ⟨hc, Or.inr hg⟩

lemma mem_dedupBy_loc {l : Loc} {xs : List Loc}
    (h : l ∈ dedupBy (fun x : Loc => (x.city, x.state)) xs) : l ∈ xs :=
  mem_of_mem_dedupByAux _ [] xs l h

/-- Claim C2: every entry emitted by normalize_locations has a non-empty
city that is either the Title-Case form of a gazetteer city (with a
non-empty state) or the literal "Australia" (the country-level sentinel,
the only entry whose state is empty). -/
theorem normalize_locations_output_invariant :
    ∀ (inputs : List (List Nat)) (l : Loc), l ∈ normalize_locations inputs →
      l.city ≠ [] ∧
      (l.state = [] → l.city = codes "Australia") ∧
      ((l.city = codes "Australia" ∧ l.state = []) ∨
        ∃ g, isCityKey g = true ∧ l.city = pyTitle g ∧ l.state ≠ []) := by
  intro inputs l hmem
  have h1 : l ∈ inputs.filterMap processLocation := mem_dedupBy_loc hmem
  rcases List.mem_filterMap.mp h1 with ⟨raw, _, hp⟩
  obtain ⟨hc, hd⟩ := processLocation_some hp
  refine ⟨hc, ?_, hd⟩
  intro hs
  rcases hd with ⟨hcity, _⟩ | ⟨g, _, _, hgs⟩
  · exact hcity
  · exact absurd hs hgs

/-- Claim C2 witness: a plain gazetteer city normalizes to a Title-Case
entry satisfying the invariant. -/
theorem normalize_locations_output_invariant_witness :
    (⟨codes "Sydney", codes "NSW"⟩ : Loc) ∈ normalize_locations [codes "Sydney"] ∧
      ((⟨codes "Sydney", codes "NSW"⟩ : Loc).city ≠ [] ∧
      ((⟨codes "Sydney", codes "NSW"⟩ : Loc).state = [] →
        (⟨codes "Sydney", codes "NSW"⟩ : Loc).city = codes "Australia") ∧
      (((⟨codes "Sydney", codes "NSW"⟩ : Loc).city = codes "Australia" ∧
          (⟨codes "Sydney", codes "NSW"⟩ : Loc).state = []) ∨
        ∃ g, isCityKey g = true ∧
          (⟨codes "Sydney", codes "NSW"⟩ : Loc).city = pyTitle g ∧
          (⟨codes "Sydney", codes "NSW"⟩ : Loc).state ≠ [])) :=
  ⟨by decide,
   normalize_locations_output_invariant [codes "Sydney"] ⟨codes "Sydney", codes "NSW"⟩
     (by decide)⟩

/-- Claim C8: any input whose trimmed lowercase form is exactly "australia"
or "au" emits the country-level sentinel entry (it is not filtered as a
state name), and normalize_locations on Australia and AU deduplicates the
two sentinels to a single entry. -/
theorem normalize_locations_australia_sentinel :
    (∀ s : List Nat,
        pyLower (pyStrip s) = codes "australia" ∨ pyLower (pyStrip s) = codes "au" →
        processLocation s = some ⟨codes "Australia", []⟩) ∧
      normalize_locations [codes "Australia", codes "AU"] =
        [⟨codes "Australia", []⟩] := by
  constructor
  · intro s h
    have hs : s ≠ [] := by
      intro he
      subst he
      rcases h with h | h <;> exact absurd h (by decide)
    simp only [processLocation]
    rw [if_neg hs, if_pos h]
  · decide

/-- Claim C8 witness: the sentinel rule applied to the concrete input " AU ". -/
theorem normalize_locations_australia_sentinel_witness :
    processLocation (codes " AU ") = some ⟨codes "Australia", []⟩ :=
  normalize_locations_australia_sentinel.1 (codes " AU ") (by decide)

/-- Claim C5: the fingerprint is invariant under ASCII case changes and
leading/trailing whitespace of either input (it lowercases and trims both
and joins them with the fixed delimiter), and in particular
fingerprint("Acme", "Software Engineer") equals
fingerprint(" acme ", "SOFTWARE ENGINEER").  Determinism is immediate:
generateFingerprint is a function of its two arguments. -/
theorem generateFingerprint_case_trim_invariant :
    (∀ c t c2 t2 w1 w2 w3 w4 : List Nat,
        pyLower c2 = pyLower c → pyLower t2 = pyLower t →
        (∀ x ∈ w1, isSpaceC x = true) → (∀ x ∈ w2, isSpaceC x = true) →
        (∀ x ∈ w3, isSpaceC x = true) → (∀ x ∈ w4, isSpaceC x = true) →
        generateFingerprint (w1 ++ c2 ++ w2) (w3 ++ t2 ++ w4) =
          generateFingerprint c t) ∧
      generateFingerprint (codes " acme ") (codes "SOFTWARE ENGINEER") =
        generateFingerprint (codes "Acme") (codes "Software Engineer") := by
  constructor
  · intro c t c2 t2 w1 w2 w3 w4 hc ht h1 h2 h3 h4
    have key : ∀ (x x2 wa wb : List Nat), pyLower x2 = pyLower x →
        (∀ y ∈ wa, isSpaceC y = true) → (∀ y ∈ wb, isSpaceC y = true) →
        pyStrip (pyLower (wa ++ x2 ++ wb)) = pyStrip (pyLower x) := by
      intro x x2 wa wb hx ha hb
      rw [List.append_assoc, pyLower_append, pyLower_append,
        pyLower_of_all_space ha, pyLower_of_all_space hb, ← List.append_assoc]
      rw [pyStrip_pad ha hb, hx]
    simp only [generateFingerprint]
    rw [key c c2 w1 w2 hc h1 h2, key t t2 w3 w4 ht h3 h4]
  · decide

/-- Claim C5 witness: the invariance applied at the concrete spec example. -/
theorem generateFingerprint_case_trim_invariant_witness :
    generateFingerprint ([32] ++ codes "acme" ++ [32]) (([] : List Nat) ++ codes "SOFTWARE ENGINEER" ++ []) =
      generateFingerprint (codes "Acme") (codes "Software Engineer") :=
  generateFingerprint_case_trim_invariant.1 (codes "Acme") (codes "Software Engineer")
    (codes "acme") (codes "SOFTWARE ENGINEER") [32] [32] [] []
    (by decide) (by decide) (by decide) (by decide) (by decide) (by decide)

/-- Claim C4 (code bug in the source): on the input "-$50,000 per year" the
parser does not return None; the single-value pattern skips the leading
hyphen and yields a spurious 50,000..50,000 annual range, contradicting the
repository's own expectation (src/test_negative_only.py expects None). -/
theorem extract_salary_leading_hyphen_value :
    extract_salary (codes "-$50,000 per year") = some ⟨50000, 50000⟩ := by
  decide

/-- Claim C9: the fixed annualization multiplier table (hourly times 2080,
daily times 260, weekly times 52, monthly times 12, yearly times 1), the
yearly default when no interval keyword occurs near the match, and the two
concrete results of the spec. -/
theorem extract_salary_annualization_table :
    extract_salary (codes "$76,000 - $85,000 per year") = some ⟨76000, 85000⟩ ∧
    extract_salary (codes "$50 per hour") = some ⟨104000, 104000⟩ ∧
    (∀ a : Nat,
      toAnnualN a PayInterval.hourly = a * 2080 ∧
      toAnnualN a PayInterval.daily = a * 260 ∧
      toAnnualN a PayInterval.weekly = a * 52 ∧
      toAnnualN a PayInterval.monthly = a * 12 ∧
      toAnnualN a PayInterval.yearly = a) ∧
    (∀ ctx : List Nat,
      containsSub (codes "hour") (pyLower ctx) = false →
      containsSub (codes "/hr") (pyLower ctx) = false →
      containsSub (codes "hrly") (pyLower ctx) = false →
      containsSub (codes "day") (pyLower ctx) = false →
      containsSub (codes "week") (pyLower ctx) = false →
      containsSub (codes "wk") (pyLower ctx) = false →
      containsSub (codes "month") (pyLower ctx) = false →
      containsSub (codes "mo") (pyLower ctx) = false →
      containsSub (codes "mth") (pyLower ctx) = false →
      detectInterval ctx = PayInterval.yearly) := by
  refine ⟨by decide, by decide, ?_, ?_⟩
  · intro a
    exact ⟨rfl, rfl, rfl, rfl, Nat.mul_one a⟩
  · intro ctx h1 h2 h3 h4 h5 h6 h7 h8 h9
    simp only [detectInterval, h1, h2, h3, h4, h5, h6, h7, h8, h9]
    rfl

/-- Claim C9 witness: the default branch applied to a keyword-free context. -/
theorem extract_salary_annualization_table_witness :
    detectInterval (codes "salary: competitive") = PayInterval.yearly :=
  extract_salary_annualization_table.2.2.2 (codes "salary: competitive")
    (by decide) (by decide) (by decide) (by decide) (by decide) (by decide)
    (by decide) (by decide) (by decide)

lemma dv_lower_of_not_lt {m : DecimalVal} (h : dvLt m ⟨10000, 0⟩ = false) :
    (10000 : ℚ) ≤ dvToRat m := by
  simp only [dvLt, decide_eq_false_iff_not, not_lt, pow_zero, Nat.mul_one] at h
  rw [dvToRat, le_div_iff₀ (by positivity)]
  exact_mod_cast h

lemma dv_upper_of_not_lt {m : DecimalVal} (h : dvLt ⟨1000000, 0⟩ m = false) :
    dvToRat m ≤ (1000000 : ℚ) := by
  simp only [dvLt, decide_eq_false_iff_not, not_lt, pow_zero, Nat.mul_one] at h
  rw [dvToRat, div_le_iff₀ (by positivity)]
  exact_mod_cast h

/-- Claim C7 (amended): normalize_salary enforces the plausibility bound —
every returned range has an annual minimum between 10,000 and 1,000,000;
implausible extractions yield none rather than an error.  (The other text
parser, SalaryParser.extract_salary, applies no such bound; see the
counterexample.) -/
theorem normalize_salary_plausibility_bound :
    ∀ (raw : List Nat) (minv maxv : DecimalVal),
      normalize_salary raw = some (minv, maxv) →
      (10000 : ℚ) ≤ dvToRat minv ∧ dvToRat minv ≤ (1000000 : ℚ) := by
  intro raw minv maxv h
  simp only [normalize_salary] at h
  split at h
  · exact absurd h (by simp)
  · split at h
    · exact absurd h (by simp)
    · split at h
      · exact absurd h (by simp)
      · split_ifs at h with hg
        rw [not_or] at hg
        simp only [Bool.not_eq_true] at hg
        simp only [Option.some.injEq, Prod.mk.injEq] at h
        obtain ⟨h1, _⟩ := h
        subst h1
        exact ⟨dv_lower_of_not_lt hg.1, dv_upper_of_not_lt hg.2⟩

/-- Claim C7 witness: the bound instantiated on a concrete accepted input. -/
theorem normalize_salary_plausibility_bound_witness :
    (10000 : ℚ) ≤ dvToRat ⟨76000, 0⟩ ∧ dvToRat ⟨76000, 0⟩ ≤ (1000000 : ℚ) :=
  normalize_salary_plausibility_bound (codes "$76,000") ⟨76000, 0⟩ ⟨76000, 0⟩ (by decide)

/-- Claim C7 counterexample: SalaryParser.extract_salary applies no
plausibility bound — it returns an annual minimum of 5 on "$5 per year"
instead of the null the claim requires for values below 10,000. -/
theorem extract_salary_no_plausibility_counterexample :
    extract_salary (codes "$5 per year") = some ⟨5, 5⟩ ∧ (5 : Nat) < 10000 :=
  ⟨by decide, by decide⟩

/-- Claim C3 (code bug in the source): the early graduate-program check does
run on the raw lowercased title before stop-word stripping, so
classify("Graduate Program") = "Graduate Program" for every embedding
fallback E, and "Data Science Graduate Program" skips the early check (the
title contains the indicator "data").  But after cleaning, the title
becomes "data science", which no taxonomy keyword matches, so the result is
whatever the external embedding fallback returns — "Specialized" in the
documented degraded mode — not the deterministic "Data Scientist" the
source comment and the spec promise. -/
theorem extract_job_role_graduate_program_paths :
    ∀ E : List Nat → List Nat,
      extract_job_role E (codes "Graduate Program") = codes "Graduate Program" ∧
      extract_job_role E (codes "Data Science Graduate Program") =
        E (codes "data science") ∧
      extract_job_role embFail (codes "Data Science Graduate Program") =
        codes "Specialized" := by
  intro E
  refine ⟨rfl, rfl, rfl⟩

lemma findRole_spec :
    ∀ (tax : List (List Nat × List (List Nat))) (t r : List Nat),
      findRole tax t = some r →
      ∃ pre kws post, tax = pre ++ (r, kws) :: post ∧
        (∃ kw ∈ kws, containsSub kw t = true) ∧
        ∀ p ∈ pre, ∀ kw ∈ p.2, containsSub kw t = false := by
  intro tax
  induction tax with
  | nil => intro t r h; simp [findRole] at h
  | cons hd rest ih =>
    intro t r h
    rcases hd with ⟨r0, kws0⟩
    simp only [findRole] at h
    split_ifs at h with hany
    · cases h
      refine ⟨[], kws0, rest, by simp, ?_, by simp⟩
      rcases List.any_eq_true.mp hany with ⟨kw, hkw, hc⟩
      exact ⟨kw, hkw, hc⟩
    · rcases ih t r h with ⟨pre, kws, post, htax, hkw, hpre⟩
      refine ⟨(r0, kws0) :: pre, kws, post, by simp [htax], hkw, ?_⟩
      intro p hp kw hkwp
      rcases List.mem_cons.mp hp with rfl | hp
      · simp only [Bool.not_eq_true] at hany
        have h2 := List.any_eq_false.mp hany kw hkwp
        exact Bool.not_eq_true _ ▸ h2
      · exact hpre p hp kw hkwp

/-- Claim C6: the classifier walks the taxonomy in its fixed order and
returns the first role any of whose keyword phrases occurs as a substring
of the cleaned title (every earlier category has no matching keyword); in
particular "Software Engineer - AI/ML" classifies as "AI Engineer" for
every embedding fallback, because the AI Engineer category precedes the
generic Software Engineer category. -/
theorem extract_job_role_jobly_priority_order :
    (∀ t r, findRole roleTaxonomyJobly t = some r →
        ∃ pre kws post, roleTaxonomyJobly = pre ++ (r, kws) :: post ∧
          (∃ kw ∈ kws, containsSub kw t = true) ∧
          ∀ p ∈ pre, ∀ kw ∈ p.2, containsSub kw t = false) ∧
      (∀ E, extract_job_role_jobly E (codes "Software Engineer - AI/ML") =
        codes "AI Engineer") ∧
      (roleTaxonomyJobly.map Prod.fst).indexOf (codes "AI Engineer") <
        (roleTaxonomyJobly.map Prod.fst).indexOf (codes "Software Engineer") := by
  refine ⟨fun t r h => findRole_spec roleTaxonomyJobly t r h, fun E => rfl, by decide⟩

/-- Claim C6 witness: the priority property instantiated on the cleaned
form of the concrete title. -/
theorem extract_job_role_jobly_priority_order_witness :
    ∃ pre kws post, roleTaxonomyJobly = pre ++ (codes "AI Engineer", kws) :: post ∧
      (∃ kw ∈ kws, containsSub kw (codes "software engineer - ai/ml") = true) ∧
      ∀ p ∈ pre, ∀ kw ∈ p.2,
        containsSub kw (codes "software engineer - ai/ml") = false :=
  extract_job_role_jobly_priority_order.1 (codes "software engineer - ai/ml")
    (codes "AI Engineer") (by decide)

lemma pyReplaceF_no_head {x : Nat} {p rep : List Nat} :
    ∀ (fuel : Nat) (t : List Nat), x ∉ t → pyReplaceF (x :: p) rep fuel t = t := by
  intro fuel
  induction fuel with
  | zero => intro t _; cases t <;> rfl
  | succ n ih =>
    intro t ht
    cases t with
    | nil => rfl
    | cons c cs =>
      have hxc : x ≠ c := fun he => ht (he ▸ List.mem_cons_self c cs)
      have hcond : ¬((x :: p) ≠ [] ∧ isPrefC (x :: p) (c :: cs) = true) := by
        rintro ⟨-, hp⟩
        simp only [isPrefC, Bool.and_eq_true, beq_iff_eq] at hp
        exact hxc hp.1
      simp only [pyReplaceF, if_neg hcond]
      rw [ih cs (fun hm => ht (List.mem_cons_of_mem _ hm))]

lemma cleanDesc_no_backslash {t : List Nat} (h : (92 : Nat) ∉ t) :
    cleanDesc t = t := by
  simp only [cleanDesc, pyReplace]
  rw [show codes "\\$" = (92 :: [36]) from rfl, pyReplaceF_no_head _ _ h,
    show codes "\\-" = (92 :: [45]) from rfl, pyReplaceF_no_head _ _ h,
    show codes "\\." = (92 :: [46]) from rfl, pyReplaceF_no_head _ _ h]

lemma no_backslash_template {ds : List Nat} (hds : ∀ d ∈ ds, isDigitC d = true) :
    (92 : Nat) ∉ 36 :: ds ++ codes " per week" := by
  intro hm
  rcases List.mem_cons.mp hm with h | h
  · exact absurd h (by decide)
  · rcases List.mem_append.mp h with h | h
    · have := hds _ h
      simp only [isDigitC, Bool.and_eq_true, decide_eq_true_eq] at this
      omega
    · exact absurd h (by decide)

lemma lowerC_of_digit {d : Nat} (h : isDigitC d = true) : lowerC d = d := by
  simp only [isDigitC, Bool.and_eq_true, decide_eq_true_eq] at h
  simp only [lowerC]
  split_ifs with hif
  · omega
  · rfl

lemma pyLower_eq_self_of {s : List Nat} (h : ∀ c ∈ s, lowerC c = c) :
    pyLower s = s := by
  induction s with
  | nil => rfl
  | cons a as ih =>
    simp only [pyLower, List.map_cons]
    rw [h a (List.mem_cons_self a as)]
    rw [show List.map lowerC as = pyLower as from rfl,
      ih (fun c hc => h c (List.mem_cons_of_mem _ hc))]

lemma pyLower_template {ds : List Nat} (hds : ∀ d ∈ ds, isDigitC d = true) :
    pyLower (36 :: ds ++ codes " per week") = 36 :: ds ++ codes " per week" := by
  apply pyLower_eq_self_of
  intro c hc
  rcases List.mem_cons.mp hc with rfl | hc
  · decide
  · rcases List.mem_append.mp hc with hc | hc
    · exact lowerC_of_digit (hds c hc)
    · have hall : ∀ x ∈ codes " per week", lowerC x = x := by decide
      exact hall c hc

lemma isSpaceC_of_digit {d : Nat} (h : isDigitC d = true) : isSpaceC d = false := by
  simp only [isDigitC, Bool.and_eq_true, decide_eq_true_eq] at h
  simp only [isSpaceC]
  rw [Bool.eq_false_iff]
  intro hcon
  simp only [Bool.or_eq_true, beq_iff_eq] at hcon
  omega

lemma isDigCommaC_of_digit {d : Nat} (h : isDigitC d = true) : isDigCommaC d = true := by
  simp [isDigCommaC, h]

lemma beq36_of_digit {d : Nat} (h : isDigitC d = true) : (d == 36) = false := by
  simp only [isDigitC, Bool.and_eq_true, decide_eq_true_eq] at h
  simp only [beq_eq_false_iff_ne, ne_eq]
  omega

lemma takeWhile_digits {d : Nat} {ds' : List Nat} (hd : isDigitC d = true)
    (hds' : ∀ x ∈ ds', isDigitC x = true) :
    ((d :: ds') ++ codes " per week").takeWhile isDigCommaC = d :: ds' := by
  rw [takeWhile_append_of_all _ (by
    intro x hx
    rcases List.mem_cons.mp hx with rfl | hx
    · exact isDigCommaC_of_digit hd
    · exact isDigCommaC_of_digit (hds' x hx))]
  rw [show (codes " per week").takeWhile isDigCommaC = [] from rfl, List.append_nil]

lemma matchRangeAt_digits_none {d : Nat} {ds' : List Nat} (hd : isDigitC d = true)
    (hds' : ∀ x ∈ ds', isDigitC x = true) :
    matchRangeAt (d :: (ds' ++ codes " per week")) = none := by
  show matchRangeAt ((d :: ds') ++ codes " per week") = none
  simp only [matchRangeAt]
  rw [show consumeOpt 36 ((d :: ds') ++ codes " per week") =
      (0, (d :: ds') ++ codes " per week") from by
    simp [consumeOpt, beq36_of_digit hd]]
  rw [show ((d :: ds') ++ codes " per week").takeWhile isSpaceC = [] from by
    rw [show (d :: ds') ++ codes " per week" = d :: (ds' ++ codes " per week") from rfl]
    simp [List.takeWhile_cons, isSpaceC_of_digit hd]]
  simp only [List.length_nil, List.drop_zero, takeWhile_digits hd hds']
  rw [if_neg (List.cons_ne_nil d ds')]
  rw [show ((d :: ds') ++ codes " per week").drop (d :: ds').length = codes " per week" from
    List.drop_left _ _]
  rw [show matchRangeTail (codes " per week") = none from by decide]

lemma searchRangeAux_cons_of_none {c : Nat} {rest : List Nat}
    (h : matchRangeAt (c :: rest) = none) :
    searchRangeAux (c :: rest) = (searchRangeAux rest).map (fun r => (r.1 + 1, r.2)) := by
  simp only [searchRangeAux, h]

lemma searchRangeAux_digits_none :
    ∀ ds : List Nat, (∀ x ∈ ds, isDigitC x = true) →
      searchRangeAux (ds ++ codes " per week") = none := by
  intro ds
  induction ds with
  | nil =>
    intro _
    rw [List.nil_append]
    decide
  | cons d ds' ih =>
    intro h
    have hd := h d (List.mem_cons_self d ds')
    have hds' := fun x hx => h x (List.mem_cons_of_mem d hx)
    rw [List.cons_append, searchRangeAux_cons_of_none (matchRangeAt_digits_none hd hds'),
      ih hds']
    rfl

lemma searchRange_template_none {ds : List Nat} (hne : ds ≠ [])
    (hds : ∀ x ∈ ds, isDigitC x = true) :
    searchRange (36 :: ds ++ codes " per week") = none := by
  rcases ds with _ | ⟨d, ds'⟩
  · exact absurd rfl hne
  · have hd := hds d (List.mem_cons_self d ds')
    have hds' := fun x hx => hds x (List.mem_cons_of_mem d hx)
    have hm : matchRangeAt (36 :: ((d :: ds') ++ codes " per week")) = none := by
      simp only [matchRangeAt]
      rw [show consumeOpt 36 (36 :: ((d :: ds') ++ codes " per week")) =
          (1, (d :: ds') ++ codes " per week") from by simp [consumeOpt]]
      rw [show ((d :: ds') ++ codes " per week").takeWhile isSpaceC = [] from by
        rw [show (d :: ds') ++ codes " per week" = d :: (ds' ++ codes " per week") from rfl]
        simp [List.takeWhile_cons, isSpaceC_of_digit hd]]
      simp only [List.length_nil, List.drop_zero, takeWhile_digits hd hds']
      rw [if_neg (List.cons_ne_nil d ds')]
      rw [show ((d :: ds') ++ codes " per week").drop (d :: ds').length = codes " per week" from
        List.drop_left _ _]
      rw [show matchRangeTail (codes " per week") = none from by decide]
    show searchRangeAux (36 :: ((d :: ds') ++ codes " per week")) = none
    rw [searchRangeAux_cons_of_none hm, searchRangeAux_digits_none (d :: ds') hds]
    rfl

lemma matchSingleAt_template {d : Nat} {ds' : List Nat} (hd : isDigitC d = true)
    (hds' : ∀ x ∈ ds', isDigitC x = true) :
    matchSingleAt (36 :: ((d :: ds') ++ codes " per week")) =
      some ((d :: ds').length + 10, d :: ds') := by
  simp only [matchSingleAt]
  rw [show consumeOpt 36 (36 :: ((d :: ds') ++ codes " per week")) =
      (1, (d :: ds') ++ codes " per week") from by simp [consumeOpt]]
  rw [show ((d :: ds') ++ codes " per week").takeWhile isSpaceC = [] from by
    rw [show (d :: ds') ++ codes " per week" = d :: (ds' ++ codes " per week") from rfl]
    simp [List.takeWhile_cons, isSpaceC_of_digit hd]]
  simp only [List.length_nil, List.drop_zero, takeWhile_digits hd hds']
  rw [if_neg (List.cons_ne_nil d ds')]
  rw [show ((d :: ds') ++ codes " per week").drop (d :: ds').length = codes " per week" from
    List.drop_left _ _]
  rw [show matchSingleTail (codes " per week") = 9 from by decide]
  have harith : 1 + 0 + (d :: ds').length + 9 = (d :: ds').length + 10 := by omega
  rw [harith]

lemma searchSingle_template {d : Nat} {ds' : List Nat} (hd : isDigitC d = true)
    (hds' : ∀ x ∈ ds', isDigitC x = true) :
    searchSingle (36 :: ((d :: ds') ++ codes " per week")) =
      some (0, (d :: ds').length + 10, d :: ds') := by
  show searchSingleAux (36 :: ((d :: ds') ++ codes " per week")) = _
  simp only [searchSingleAux, matchSingleAt_template hd hds']

lemma parseNum_digits {ds : List Nat} (hne : ds ≠ [])
    (hds : ∀ x ∈ ds, isDigitC x = true) : parseNum ds = some (natVal ds) := by
  simp only [parseNum]
  have hf : ds.filter (fun c => c ≠ 44) = ds := by
    apply List.filter_eq_self.mpr
    intro a ha
    have h2 := hds a ha
    simp only [isDigitC, Bool.and_eq_true, decide_eq_true_eq] at h2
    simp only [ne_eq, decide_eq_true_eq]
    omega
  rw [hf, if_neg hne]

lemma not_mem_template {ds : List Nat} {c : Nat}
    (hds : ∀ x ∈ ds, isDigitC x = true) (h36 : c ≠ 36)
    (hdig : c < 48 ∨ 57 < c) (hS : c ∉ codes " per week") :
    c ∉ 36 :: (ds ++ codes " per week") := by
  intro hm
  rcases List.mem_cons.mp hm with h | h
  · exact h36 h
  · rcases List.mem_append.mp h with h | h
    · have h2 := hds c h
      simp only [isDigitC, Bool.and_eq_true, decide_eq_true_eq] at h2
      omega
    · exact hS h

lemma containsSub_week_template (ds : List Nat) :
    containsSub (codes "week") (36 :: (ds ++ codes " per week")) = true := by
  have h1 : containsSub (codes "week") (codes " per week") = true := by decide
  have h2 := containsSub_append_of_right ds h1
  have h3 := containsSub_append_of_right [36] h2
  exact h3

lemma detectInterval_template {ds : List Nat}
    (hds : ∀ x ∈ ds, isDigitC x = true) :
    detectInterval (36 :: (ds ++ codes " per week")) = PayInterval.weekly := by
  simp only [detectInterval]
  rw [show pyLower (36 :: (ds ++ codes " per week")) = 36 :: (ds ++ codes " per week") from
    pyLower_template hds]
  rw [containsSub_eq_false_of_not_mem 104 (by decide)
    (not_mem_template hds (by decide) (by omega) (by decide))]
  rw [containsSub_eq_false_of_not_mem 47 (by decide)
    (not_mem_template hds (by decide) (by omega) (by decide))]
  rw [containsSub_eq_false_of_not_mem 108 (by decide)
    (not_mem_template hds (by decide) (by omega) (by decide))]
  rw [containsSub_eq_false_of_not_mem 100 (by decide)
    (not_mem_template hds (by decide) (by omega) (by decide))]
  rw [containsSub_week_template ds]
  rfl

lemma extractSingle_template {d : Nat} {ds' : List Nat} (hd : isDigitC d = true)
    (hds' : ∀ x ∈ ds', isDigitC x = true) :
    extractSingle (36 :: ((d :: ds') ++ codes " per week")) =
      some (natVal (d :: ds') * 1000, PayInterval.weekly) := by
  have hds : ∀ x ∈ d :: ds', isDigitC x = true := by
    intro x hx
    rcases List.mem_cons.mp hx with rfl | hx
    · exact hd
    · exact hds' x hx
  have hlenS : (codes " per week").length = 9 := by decide
  have hlen : (36 :: ((d :: ds') ++ codes " per week")).length = (d :: ds').length + 10 := by
    simp [List.length_append, hlenS]
  have hself : pyLower (36 :: ((d :: ds') ++ codes " per week")) =
      36 :: ((d :: ds') ++ codes " per week") := pyLower_template hds
  simp only [extractSingle, searchSingle_template hd hds',
    parseNum_digits (List.cons_ne_nil d ds') hds, List.drop_zero]
  simp only [show (36 :: ((d :: ds') ++ codes " per week")).take ((d :: ds').length + 10) =
      36 :: ((d :: ds') ++ codes " per week") from
    List.take_of_length_le (by omega)]
  rw [if_pos (show (107 : Nat) ∈ pyLower (36 :: ((d :: ds') ++ codes " per week")) from by
    rw [hself]
    exact List.mem_cons_of_mem _ (List.mem_append_right _ (by decide)))]
  simp only [ctxAround, Nat.zero_sub, Nat.zero_add, List.drop_zero]
  simp only [show (36 :: ((d :: ds') ++ codes " per week")).take ((d :: ds').length + 10 + 50) =
      36 :: ((d :: ds') ++ codes " per week") from
    List.take_of_length_le (by omega)]
  rw [hself, detectInterval_template hds]

/-- Claim C10: in the single-value path the times-1000 thousands multiplier
fires whenever the letter k occurs anywhere in the whole (lowercased) regex
match — the captured interval word "week" contains one — so every
single-value weekly input of the shape dollar-digits-per-week is first
scaled by 1000 and then annualized by 52; concretely "$900 per week" parses
to 46,800,000 while "$8,000 per month" (no k in the match) stays unscaled. -/
theorem extract_salary_single_value_week_k :
    (∀ ds : List Nat, ds ≠ [] → ds.length ≤ 900 →
        (∀ x ∈ ds, isDigitC x = true) →
        extract_salary (36 :: ds ++ codes " per week") =
          some ⟨natVal ds * 1000 * 52, natVal ds * 1000 * 52⟩) ∧
      extract_salary (codes "$900 per week") = some ⟨46800000, 46800000⟩ ∧
      extract_salary (codes "$8,000 per month") = some ⟨96000, 96000⟩ := by
  refine ⟨?_, by decide, by decide⟩
  intro ds hne hlen900 hds
  rcases ds with _ | ⟨d, ds'⟩
  · exact absurd rfl hne
  · have hd := hds d (List.mem_cons_self d ds')
    have hds' := fun x hx => hds x (List.mem_cons_of_mem d hx)
    have hlenS : (codes " per week").length = 9 := by decide
    have hlen : (36 :: ((d :: ds') ++ codes " per week")).length = (d :: ds').length + 10 := by
      simp [List.length_append, hlenS]
    simp only [extract_salary]
    rw [if_neg (show ¬(36 :: (d :: ds') ++ codes " per week" = []) from
      List.cons_ne_nil 36 ((d :: ds') ++ codes " per week"))]
    rw [cleanDesc_no_backslash (no_backslash_template hds)]
    rw [show getFirstSentences (36 :: (d :: ds') ++ codes " per week") =
        36 :: (d :: ds') ++ codes " per week" from by
      simp only [getFirstSentences]
      rw [if_pos (by rw [show (36 :: (d :: ds') ++ codes " per week") =
        (36 :: ((d :: ds') ++ codes " per week")) from rfl, hlen]; omega)]]
    rw [show extractRange (36 :: (d :: ds') ++ codes " per week") = none from by
      simp only [extractRange]
      rw [searchRange_template_none hne hds]]
    rw [show (36 :: (d :: ds') ++ codes " per week") =
      (36 :: ((d :: ds') ++ codes " per week")) from rfl]
    rw [extractSingle_template hd hds']
    rfl

/-- Claim C10 witness: the weekly-k rule applied at digits 900. -/
theorem extract_salary_single_value_week_k_witness :
    extract_salary (36 :: codes "900" ++ codes " per week") =
      some ⟨natVal (codes "900") * 1000 * 52, natVal (codes "900") * 1000 * 52⟩ :=
  extract_salary_single_value_week_k.1 (codes "900") (by decide) (by decide) (by decide)

lemma findByFingerprint_some {db : List JobRecord} {fp : List Nat} {ex : JobRecord}
    (h : findByFingerprint db fp = some ex) : ex ∈ db ∧ ex.fingerprint = fp := by
  refine ⟨List.mem_of_find?_eq_some h, ?_⟩
  have h2 := List.find?_some h
  simpa [beq_iff_eq] using h2

lemma mem_mergeUniqueValues {cur new : List (List Nat)} {x : List Nat} :
    x ∈ mergeUniqueValues cur new ↔ x ∈ cur ∨ x ∈ new := by
  rw [mergeUniqueValues, mem_dedupBy_id_iff, List.mem_append]

lemma mergeUniqueValues_nodup (cur new : List (List Nat)) :
    (mergeUniqueValues cur new).Nodup :=
  dedupBy_id_nodup _

lemma mem_mergeLocations_of {cur new : List Loc} {l : Loc}
    (h : l ∈ mergeLocations cur new) : l ∈ cur ++ new :=
  mem_of_mem_dedupByAux _ [] _ l h

lemma mergeLocations_key_complete {cur new : List Loc} {l : Loc}
    (h : l ∈ cur ++ new) :
    ∃ l', l' ∈ mergeLocations cur new ∧ l'.city = l.city ∧ l'.state = l.state := by
  rcases dedupByAux_key_complete (fun x : Loc => (x.city, x.state)) [] (cur ++ new) l h with
    hc | ⟨y, hy, hky⟩
  · simp at hc
  · refine ⟨y, hy, ?_, ?_⟩
    · exact congrArg Prod.fst hky
    · exact congrArg Prod.snd hky

lemma mergeLocations_keys_nodup (cur new : List Loc) :
    ((mergeLocations cur new).map (fun l => (l.city, l.state))).Nodup :=
  (dedupByAux_keys_nodup (fun x : Loc => (x.city, x.state)) [] (cur ++ new)).1

/-- Claim C1: upsert_job inserts a freshly stamped row with status
"inserted" exactly when no persisted row carries the candidate fingerprint;
otherwise it reports status "updated" and merges into the existing row —
locations become the (city, state)-deduplicated union, platforms and
source_urls the deduplicated unions under exact equality, and every scalar
field takes the candidate value when truthy and otherwise keeps the
existing value, so a new observation never blanks out known data. -/
theorem upsert_job_insert_or_merge :
    ∀ (db : List JobRecord) (nid now : Nat) (jd : PreparedJob),
      (findByFingerprint db (generateFingerprint jd.company jd.job_title) = none →
        (upsert_job db nid now jd).1.status = codes "inserted" ∧
        (upsert_job db nid now jd).2 =
          db ++ [mkRecord nid (generateFingerprint jd.company jd.job_title) jd now] ∧
        (upsert_job db nid now jd).2.length = db.length + 1) ∧
      (∀ ex, findByFingerprint db (generateFingerprint jd.company jd.job_title) = some ex →
        (upsert_job db nid now jd).1.status = codes "updated" ∧
        (upsert_job db nid now jd).2.length = db.length ∧
        ∃ r', r' ∈ (upsert_job db nid now jd).2 ∧ r'.id = ex.id ∧
          (∀ p, p ∈ r'.platforms ↔ p ∈ ex.platforms ∨ p ∈ jd.platforms) ∧
          r'.platforms.Nodup ∧
          (∀ u, u ∈ r'.source_urls ↔ u ∈ ex.source_urls ∨ u ∈ jd.source_urls) ∧
          r'.source_urls.Nodup ∧
          (∀ l ∈ r'.locations, l ∈ ex.locations ++ jd.locations) ∧
          (∀ l ∈ ex.locations ++ jd.locations,
            ∃ l', l' ∈ r'.locations ∧ l'.city = l.city ∧ l'.state = l.state) ∧
          (r'.locations.map (fun l => (l.city, l.state))).Nodup ∧
          r'.job_title = (if jd.job_title = [] then ex.job_title else jd.job_title) ∧
          r'.job_role = (if jd.job_role = [] then ex.job_role else jd.job_role) ∧
          r'.company = (if jd.company = [] then ex.company else jd.company) ∧
          r'.description = (if jd.description = [] then ex.description else jd.description) ∧
          r'.salary = (if jd.salary.isSome then jd.salary else ex.salary) ∧
          r'.seniority = orOptStr jd.seniority ex.seniority ∧
          r'.posted_at = orOptStr jd.posted_at ex.posted_at ∧
          r'.closing_date = orOptStr jd.closing_date ex.closing_date ∧
          (ex.description ≠ [] → r'.description ≠ []) ∧
          (ex.salary.isSome = true → r'.salary.isSome = true) ∧
          r'.updated_at = now) := by
  intro db nid now jd
  constructor
  · intro h
    have hup : upsert_job db nid now jd =
        (⟨nid, codes "inserted", generateFingerprint jd.company jd.job_title⟩,
         db ++ [mkRecord nid (generateFingerprint jd.company jd.job_title) jd now]) := by
      simp only [upsert_job, h]
    rw [hup]
    refine ⟨rfl, rfl, ?_⟩
    simp [List.length_append]
  · intro ex h
    obtain ⟨hexmem, -⟩ := findByFingerprint_some h
    have hup : upsert_job db nid now jd =
        (⟨ex.id, codes "updated", generateFingerprint jd.company jd.job_title⟩,
         updateById db ex.id (fun r =>
           updateScalars (updateDuplicate r jd.locations jd.source_urls jd.platforms now) jd)) := by
      simp only [upsert_job, h]
    rw [hup]
    refine ⟨rfl, ?_, ?_⟩
    · simp [updateById, List.length_map]
    · refine ⟨updateScalars (updateDuplicate ex jd.locations jd.source_urls jd.platforms now) jd,
        ?_, ?_, ?_, ?_, ?_, ?_, ?_, ?_, ?_, ?_, ?_, ?_, ?_, ?_, ?_, ?_, ?_, ?_, ?_, ?_⟩
      · simp only [updateById]
        exact List.mem_map.mpr ⟨ex, hexmem, by rw [if_pos rfl]⟩
      · simp [updateScalars, updateDuplicate]
      · intro p
        simp only [updateScalars, updateDuplicate]
        exact mem_mergeUniqueValues
      · simp only [updateScalars, updateDuplicate]
        exact mergeUniqueValues_nodup _ _
      · intro u
        simp only [updateScalars, updateDuplicate]
        exact mem_mergeUniqueValues
      · simp only [updateScalars, updateDuplicate]
        exact mergeUniqueValues_nodup _ _
      · intro l hl
        simp only [updateScalars, updateDuplicate] at hl
        exact mem_mergeLocations_of hl
      · intro l hl
        simp only [updateScalars, updateDuplicate]
        exact mergeLocations_key_complete hl
      · simp only [updateScalars, updateDuplicate]
        exact mergeLocations_keys_nodup _ _
      · simp [updateScalars, updateDuplicate, orStr]
      · simp [updateScalars, updateDuplicate, orStr]
      · simp [updateScalars, updateDuplicate, orStr]
      · simp [updateScalars, updateDuplicate, orStr]
      · cases hs : jd.salary <;> simp [updateScalars, updateDuplicate, orSal, hs]
      · simp [updateScalars, updateDuplicate]
      · simp [updateScalars, updateDuplicate]
      · simp [updateScalars, updateDuplicate]
      · intro hde
        simp only [updateScalars, updateDuplicate, orStr]
        split_ifs with hifd
        · exact hde
        · exact hifd
      · intro hsal
        cases hs : jd.salary
        · simpa [updateScalars, updateDuplicate, orSal, hs] using hsal
        · simp [updateScalars, updateDuplicate, orSal, hs]
      · simp [updateScalars, updateDuplicate]

/-- Claim C1 witness: the merge scenario of the spec — posting A inserted
into an empty table, then posting B with the same fingerprint upserted:
status "updated", no new row, and the one row ends with two locations, two
platforms and two source urls. -/
theorem upsert_job_insert_or_merge_witness :
    (upsert_job [] 1 100 jobA).1.status = codes "inserted" ∧
    (upsert_job dbAfterA 2 200 jobB).1.status = codes "updated" ∧
    (upsert_job dbAfterA 2 200 jobB).2.length = dbAfterA.length ∧
    ((upsert_job dbAfterA 2 200 jobB).2.map
      (fun r => (r.locations.length, r.platforms.length, r.source_urls.length))) =
      [(2, 2, 2)] :=
  ⟨((upsert_job_insert_or_merge [] 1 100 jobA).1 (by decide)).1,
   ((upsert_job_insert_or_merge dbAfterA 2 200 jobB).2
      (mkRecord 1 (generateFingerprint jobA.company jobA.job_title) jobA 100) (by decide)).1,
   ((upsert_job_insert_or_merge dbAfterA 2 200 jobB).2
      (mkRecord 1 (generateFingerprint jobA.company jobA.job_title) jobA 100) (by decide)).2.1,
   by decide⟩

/-- Claim C3 witness: the two classifier paths instantiated at the degraded
embedding fallback. -/
theorem extract_job_role_graduate_program_paths_witness :
    extract_job_role embFail (codes "Graduate Program") = codes "Graduate Program" ∧
      extract_job_role embFail (codes "Data Science Graduate Program") =
        embFail (codes "data science") :=
  ⟨(extract_job_role_graduate_program_paths embFail).1,
   (extract_job_role_graduate_program_paths embFail).2.1⟩
